import Mathlib

/-!
Verification development for the Banco Ágil conversational banking demo
(`src/services/triage_agent.py`, `interview_agent.py`, `credit_agent.py`,
`src/utils/validators.py`, `src/data/client_repository.py`).

Modelling conventions:
* Python strings are `List Char`; `None`-able values are `Option _`;
  Python floats are `ℚ` (the arithmetic in the program stays in ranges
  where binary floating point and exact rationals agree for the
  properties proved here); CSV-backed tables are lists of typed rows
  (the column-sniffing / string-to-number parsing of the CSV layer is
  out of scope per the spec and is represented by the typed fields).
* Assistant-facing message strings are represented by tags (`Msg`,
  `IMsg`) carrying the data interpolated into the corresponding
  Python f-string; one tag per distinct message in the source.
* External effects (the HTTP rate provider, the success of the atomic
  file rewrite, the wall clock) are fields of an explicit `Env`;
  mutable on-disk data (the clients CSV as seen by the interview agent,
  the append-only request log) is an explicit `World` threaded through.
-/

namespace BancoAgil

/-! ## Character and string helpers (Python `str` operations) -/

/-- Python whitespace characters (`\s`, `str.strip`): space, tab, newline,
carriage return, form feed, vertical tab. -/
def pyIsSpace (c : Char) : Bool :=
  c.toNat = 32 || c.toNat = 9 || c.toNat = 10 || c.toNat = 13 || c.toNat = 12 || c.toNat = 11

/-- Python `str.lower` restricted to the Latin-1 range actually used by the
program: ASCII `A`-`Z` and the accented block `À`-`Þ` (except `×`) map down
by 32, everything else is unchanged. -/
def pyLowerChar (c : Char) : Char :=
  let n := c.toNat
  if 65 ≤ n ∧ n ≤ 90 then Char.ofNat (n + 32)
  else if 192 ≤ n ∧ n ≤ 222 ∧ n ≠ 215 then Char.ofNat (n + 32)
  else c

/-- Python `str.upper` on the same Latin-1 range. -/
def pyUpperChar (c : Char) : Char :=
  let n := c.toNat
  if 97 ≤ n ∧ n ≤ 122 then Char.ofNat (n - 32)
  else if 224 ≤ n ∧ n ≤ 254 ∧ n ≠ 247 then Char.ofNat (n - 32)
  else c

def pyLower (t : List Char) : List Char := t.map pyLowerChar

def pyUpper (t : List Char) : List Char := t.map pyUpperChar

/-- Python `str.strip()`. -/
def pyStrip (t : List Char) : List Char :=
  ((t.dropWhile pyIsSpace).reverse.dropWhile pyIsSpace).reverse

/-- ASCII digit test (`\d` over the inputs the program handles). -/
def isDigitC (c : Char) : Bool := 48 ≤ c.toNat && c.toNat ≤ 57

/-- Does `hay` start with `needle`? -/
def startsWith : List Char → List Char → Bool
  | [], _ => true
  | _ :: _, [] => false
  | a :: ns, b :: hs => a == b && startsWith ns hs

/-- Python substring containment `needle in hay`. -/
def containsSub (needle : List Char) : List Char → Bool
  | [] => needle.isEmpty
  | c :: t => startsWith needle (c :: t) || containsSub needle t

/-- `any(k in text for k in keys)`. -/
def containsAny (keys : List (List Char)) (t : List Char) : Bool :=
  keys.any (fun k => containsSub k t)

/-- Digit value of an ASCII digit character. -/
def digitVal (c : Char) : Nat := c.toNat - 48

/-- Numeric value of a digit string. -/
def natOfDigits (ds : List Char) : Nat :=
  ds.foldl (fun acc c => 10 * acc + digitVal c) 0

/-! ## `src/utils/validators.py` -/

/-- `normalize_cpf`: keep only the digits. -/
def normalize_cpf (raw : List Char) : List Char := raw.filter isDigitC

/-- `extract_cpf`: join all digits of the text and search for an 11-digit
run; over a digits-only string the leftmost `\d{11}` match is the first
11 digits. Empty result signals failure. -/
def extract_cpf (text : List Char) : List Char :=
  let digits := text.filter isDigitC
  if 11 ≤ digits.length then digits.take 11 else []

def leapYear (y : Nat) : Bool :=
  (y % 4 = 0 && y % 100 ≠ 0) || y % 400 = 0

def daysInMonth (y m : Nat) : Nat :=
  if m = 2 then (if leapYear y then 29 else 28)
  else if m = 4 ∨ m = 6 ∨ m = 9 ∨ m = 11 then 30
  else 31

/-- `datetime(y, m, d)` constructor validity (MINYEAR 1, MAXYEAR 9999). -/
def validDate (y m d : Nat) : Bool :=
  1 ≤ y && y ≤ 9999 && 1 ≤ m && m ≤ 12 && 1 ≤ d && d ≤ daysInMonth y m

/-- `strptime` day field `%d`: `3[01] | [12]\d | 0[1-9] | [1-9] | [1-9]`
(the last alternative is a space followed by a nonzero digit). -/
def parseDay : List Char → Option (Nat × List Char)
  | c1 :: c2 :: rest =>
    if c1 = '3' ∧ (c2 = '0' ∨ c2 = '1') then some (natOfDigits [c1, c2], rest)
    else if (c1 = '1' ∨ c1 = '2') ∧ isDigitC c2 then some (natOfDigits [c1, c2], rest)
    else if c1 = '0' ∧ isDigitC c2 ∧ c2 ≠ '0' then some (natOfDigits [c1, c2], rest)
    else if isDigitC c1 ∧ c1 ≠ '0' then some (digitVal c1, c2 :: rest)
    else if c1 = ' ' ∧ isDigitC c2 ∧ c2 ≠ '0' then some (digitVal c2, rest)
    else none
  | [c1] => if isDigitC c1 ∧ c1 ≠ '0' then some (digitVal c1, []) else none
  | [] => none

/-- `strptime` month field `%m`: `1[0-2] | 0[1-9] | [1-9]`. -/
def parseMonth : List Char → Option (Nat × List Char)
  | c1 :: c2 :: rest =>
    if c1 = '1' ∧ (c2 = '0' ∨ c2 = '1' ∨ c2 = '2') then some (natOfDigits [c1, c2], rest)
    else if c1 = '0' ∧ isDigitC c2 ∧ c2 ≠ '0' then some (natOfDigits [c1, c2], rest)
    else if isDigitC c1 ∧ c1 ≠ '0' then some (digitVal c1, c2 :: rest)
    else none
  | [c1] => if isDigitC c1 ∧ c1 ≠ '0' then some (digitVal c1, []) else none
  | [] => none

/-- `strptime` year field `%Y`: exactly four digits (`\d\d\d\d`). -/
def parseYear (t : List Char) : Option (Nat × List Char) :=
  match t with
  | c1 :: c2 :: c3 :: c4 :: rest =>
    if isDigitC c1 ∧ isDigitC c2 ∧ isDigitC c3 ∧ isDigitC c4 then
      some (natOfDigits [c1, c2, c3, c4], rest)
    else none
  | _ => none

def expectChar (c : Char) : List Char → Option (List Char)
  | x :: rest => if x = c then some rest else none
  | [] => none

/-- One `strptime` attempt for a three-field format given by the field
order (`dmy` false means year first) and the separator; the whole string
must be consumed and the date must be constructible. -/
def tryFormat (dayFirst : Bool) (sep : Char) (s : List Char) : Option (Nat × Nat × Nat) :=
  if dayFirst then
    match parseDay s with
    | none => none
    | some (d, r1) =>
      match expectChar sep r1 with
      | none => none
      | some r2 =>
        match parseMonth r2 with
        | none => none
        | some (m, r3) =>
          match expectChar sep r3 with
          | none => none
          | some r4 =>
            match parseYear r4 with
            | some (y, []) => if validDate y m d then some (y, m, d) else none
            | _ => none
  else
    match parseYear s with
    | none => none
    | some (y, r1) =>
      match expectChar sep r1 with
      | none => none
      | some r2 =>
        match parseMonth r2 with
        | none => none
        | some (m, r3) =>
          match expectChar sep r3 with
          | none => none
          | some r4 =>
            match parseDay r4 with
            | some (d, []) => if validDate y m d then some (y, m, d) else none
            | _ => none

/-- Zero-pad a number to `w` digits (`strftime` `%Y`/`%m`/`%d`). -/
def padNum (w n : Nat) : List Char :=
  let ds := (Nat.toDigits 10 n)
  List.replicate (w - ds.length) '0' ++ ds

def formatISO (y m d : Nat) : List Char :=
  padNum 4 y ++ ['-'] ++ padNum 2 m ++ ['-'] ++ padNum 2 d

/-- Exactly `n` ASCII digits. -/
def takeExactlyDigits (n : Nat) (t : List Char) : Option (List Char × List Char) :=
  let ds := t.takeWhile isDigitC
  if n ≤ ds.length then some (ds.take n, t.drop n) else none

/-- The fallback regex of `normalize_date`:
`(\d{2})\D+(\d{2})\D+(\d{4})`, matched at the start of `s`. -/
def matchFallbackDateAt (s : List Char) : Option (Nat × Nat × Nat) :=
  match takeExactlyDigits 2 s with
  | none => none
  | some (d1, r1) =>
    let nonds := r1.takeWhile (fun c => !isDigitC c)
    if nonds.isEmpty then none else
    let r2 := r1.drop nonds.length
    match takeExactlyDigits 2 r2 with
    | none => none
    | some (d2, r3) =>
      let nonds2 := r3.takeWhile (fun c => !isDigitC c)
      if nonds2.isEmpty then none else
      let r4 := r3.drop nonds2.length
      match takeExactlyDigits 4 r4 with
      | none => none
      | some (d3, _) => some (natOfDigits d1, natOfDigits d2, natOfDigits d3)

/-- Leftmost search of the fallback date regex. -/
def searchFallbackDate : List Char → Option (Nat × Nat × Nat)
  | [] => none
  | c :: t =>
    match matchFallbackDateAt (c :: t) with
    | some r => some r
    | none => searchFallbackDate t

/-- `normalize_date`: try `%d/%m/%Y`, `%Y-%m-%d`, `%d-%m-%Y`, `%Y/%m/%d`
on the stripped string, then the `dd <sep> mm <sep> yyyy` fallback regex
interpreted as `datetime(y, mo, d)`; empty string signals failure. -/
def normalize_date (raw : List Char) : List Char :=
  if raw.isEmpty then [] else
  let s := pyStrip raw
  match tryFormat true '/' s with
  | some (y, m, d) => formatISO y m d
  | none =>
    match tryFormat false '-' s with
    | some (y, m, d) => formatISO y m d
    | none =>
      match tryFormat true '-' s with
      | some (y, m, d) => formatISO y m d
      | none =>
        match tryFormat false '/' s with
        | some (y, m, d) => formatISO y m d
        | none =>
          match searchFallbackDate s with
          | some (d, mo, y) => if validDate y mo d then formatISO y mo d else []
          | none => []

/-- Matcher for the explicit date patterns of `extract_date`; each pattern
is a list of (digit count, following literal separator) pieces ending in a
final digit run. `\d{2}/\d{2}/\d{2,4}` is handled by trying the greedy
lengths 4, 3, 2 for the last run. -/
def matchDatePatternAt (pieces : List (Nat × Char)) (lastLens : List Nat) (s : List Char) :
    Option (List Char) :=
  match pieces with
  | [] =>
    lastLens.firstM (fun n =>
      match takeExactlyDigits n s with
      | some (ds, _) => some ds
      | none => none)
  | (n, sep) :: rest =>
    match takeExactlyDigits n s with
    | none => none
    | some (ds, r1) =>
      match expectChar sep r1 with
      | none => none
      | some r2 =>
        match matchDatePatternAt rest lastLens r2 with
        | some tail => some (ds ++ [sep] ++ tail)
        | none => none

def searchDatePattern (pieces : List (Nat × Char)) (lastLens : List Nat) :
    List Char → Option (List Char)
  | [] => none
  | c :: t =>
    match matchDatePatternAt pieces lastLens (c :: t) with
    | some m => some m
    | none => searchDatePattern pieces lastLens t

/-- `extract_date`: search the four explicit patterns in order
(`\d{2}/\d{2}/\d{4}`, `\d{4}-\d{2}-\d{2}`, `\d{2}-\d{2}-\d{4}`,
`\d{2}/\d{2}/\d{2,4}`), normalizing the first hit; otherwise fall back to
`normalize_date` on the whole text. -/
def extract_date (text : List Char) : List Char :=
  if text.isEmpty then [] else
  match searchDatePattern [(2, '/'), (2, '/')] [4] text with
  | some m => normalize_date m
  | none =>
    match searchDatePattern [(4, '-'), (2, '-')] [2] text with
    | some m => normalize_date m
    | none =>
      match searchDatePattern [(2, '-'), (2, '-')] [4] text with
      | some m => normalize_date m
      | none =>
        match searchDatePattern [(2, '/'), (2, '/')] [4, 3, 2] text with
        | some m => normalize_date m
        | none => normalize_date text

/-! ## `src/services/triage_agent.py` — parsing helpers -/

/-- Consume the optional opening bracket of `[\(\[]?`. -/
def stripOpenBracket : List Char → List Char
  | c :: r => if c = '(' ∨ c = '[' then r else c :: r
  | [] => []

/-- First alternative of `_is_short_numeric_choice`:
`re.fullmatch(r"[\(\[]?\d{1,2}[\)\]]?", t)`. -/
def fullmatchBracketChoice (t : List Char) : Bool :=
  match stripOpenBracket t with
  | [] => false
  | d :: rest =>
    isDigitC d &&
      (match rest with
       | [] => true
       | c :: rest2 =>
         if isDigitC c then
           match rest2 with
           | [] => true
           | c2 :: rest3 => (c2 = ')' || c2 = ']') && rest3.isEmpty
         else (c = ')' || c = ']') && rest2.isEmpty)

/-- Second alternative: `re.match(r"^\d[\.\-\s]*$", t)`. -/
def matchDigitPunct (t : List Char) : Bool :=
  match t with
  | d :: rest => isDigitC d && rest.all (fun c => c = '.' || c = '-' || pyIsSpace c)
  | [] => false

/-- `_is_short_numeric_choice`. -/
def is_short_numeric_choice (text : List Char) : Bool :=
  if text.isEmpty then false else
  let t := pyStrip text
  fullmatchBracketChoice t || matchDigitPunct t

/-- Core of `_extract_amount`'s first regex
`(\d+(?:\.\d+)?)\s*(k|mil|m)?` applied at a digit (the transformed text
contains no whitespace, so `\s*` is always empty); the alternation is
tried in order `k`, `mil`, `m`. -/
def matchAmountAt (t : List Char) : ℚ :=
  let ds := t.takeWhile isDigitC
  let r1 := t.drop ds.length
  let (frac, r2) : List Char × List Char :=
    match r1 with
    | '.' :: r =>
      let f := r.takeWhile isDigitC
      if f.isEmpty then ([], r1) else (f, r.drop f.length)
    | _ => ([], r1)
  let base : ℚ := (natOfDigits ds : ℚ) + (natOfDigits frac : ℚ) / ((10 : ℚ) ^ frac.length)
  if startsWith ['k'] r2 then base * 1000
  else if startsWith ['m', 'i', 'l'] r2 then base * 1000
  else if startsWith ['m'] r2 then base * 1000000
  else base

def searchAmount : List Char → Option ℚ
  | [] => none
  | c :: t => if isDigitC c then some (matchAmountAt (c :: t)) else searchAmount t

/-- `_extract_amount`: lower-case, drop `[r$\s]` characters, drop `.` and
turn `,` into `.`, then the first regex. The second regex (over the raw
text) needs a digit just like the first, and the transformation preserves
digits, so when the first search fails the second does too. -/
def extract_amount (text : List Char) : Option ℚ :=
  if text.isEmpty then none else
  let t0 := pyLower text
  let t1 := t0.filter (fun c => !(c = 'r' || c = '$' || pyIsSpace c))
  let t2 := (t1.filter (fun c => c ≠ '.')).map (fun c => if c = ',' then '.' else c)
  searchAmount t2

/-- `_is_asking_current_limit`. -/
def is_asking_current_limit (text : List Char) : Bool :=
  if text.isEmpty then false else
  containsAny [
    ("qual é o meu limite".toList), ("qual meu limite".toList), ("limite atual".toList),
    ("esqueci meu limite".toList), ("meu limite".toList), ("meu crédito".toList),
    ("meu credito".toList)] (pyLower text)

inductive Choice | credito | interview | cambio
deriving DecidableEq, Repr

/-- `_interpret_action_choice` (`''` becomes `none`). -/
def interpret_action_choice (text : List Char) : Option Choice :=
  if text.isEmpty then none else
  let t := pyLower (pyStrip text)
  if t = ("1".toList) ∨ t = ("1)".toList) ∨ t = ("(1)".toList) then some .credito
  else if t = ("2".toList) ∨ t = ("2)".toList) ∨ t = ("(2)".toList) then some .interview
  else if t = ("3".toList) ∨ t = ("3)".toList) ∨ t = ("(3)".toList) then some .cambio
  else if containsAny [("credito".toList), ("crédito".toList), ("limite".toList),
      ("aumento".toList)] t then some .credito
  else if containsAny [("entrevista".toList), ("score".toList), ("pontuação".toList),
      ("pontuacao".toList)] t then some .interview
  else if containsAny [("câmbio".toList), ("cambio".toList), ("cotação".toList),
      ("cotacao".toList), ("moeda".toList), ("dólar".toList), ("euro".toList),
      ("usd".toList), ("eur".toList), ("brl".toList)] t then some .cambio
  else none

inductive CreditSub | consultar | solicitar
deriving DecidableEq, Repr

/-- `_interpret_credit_action`. -/
def interpret_credit_action (text : List Char) : Option CreditSub :=
  if text.isEmpty then none else
  let t := pyLower (pyStrip text)
  if t = ("1".toList) ∨ t = ("1)".toList) ∨ t = ("(1)".toList) then some .consultar
  else if t = ("2".toList) ∨ t = ("2)".toList) ∨ t = ("(2)".toList) then some .solicitar
  else if containsAny [("consultar".toList), ("consulta".toList), ("ver limite".toList),
      ("limite atual".toList), ("meu limite".toList)] t then some .consultar
  else if containsAny [("solicitar".toList), ("solicitação".toList), ("aumentar".toList),
      ("aumento".toList), ("novo limite".toList), ("pedir aumento".toList)] t
    then some .solicitar
  else none

/-- Word characters for `re` boundaries over the texts handled here:
ASCII alphanumerics, underscore and the accented Latin-1 letters. -/
def isWordChar (c : Char) : Bool :=
  let n := c.toNat
  (48 ≤ n && n ≤ 57) || (65 ≤ n && n ≤ 90) || (97 ≤ n && n ≤ 122) || n = 95 ||
    (192 ≤ n && n ≤ 255 && n ≠ 215 && n ≠ 247)

/-- Lower-case letter for the currency-name pattern class `[a-zà-ú]`. -/
def isCurrencyNameChar (c : Char) : Bool :=
  let n := c.toNat
  (97 ≤ n && n ≤ 122) || (224 ≤ n && n ≤ 250)

def isAsciiAlpha (c : Char) : Bool :=
  (65 ≤ c.toNat && c.toNat ≤ 90) || (97 ≤ c.toNat && c.toNat ≤ 122)

/-- A finished word-character run (accumulated in reverse) is a code when
it has exactly three ASCII letters. -/
def isCodeRun (runRev : List Char) : Bool :=
  runRev.length = 3 && runRev.all isAsciiAlpha

/-- Scanner for `re.findall(r"\b([A-Za-z]{3})\b", text)`: splits the text
into maximal word-character runs and keeps those that are exactly three
ASCII letters. `runRev` holds the current run, reversed. -/
def codesAux (runRev : List Char) : List Char → List (List Char)
  | [] => if isCodeRun runRev then [runRev.reverse] else []
  | c :: t =>
    if isWordChar c then codesAux (c :: runRev) t
    else (if isCodeRun runRev then [runRev.reverse] else []) ++ codesAux [] t

def findThreeLetterCodes (t : List Char) : List (List Char) :=
  codesAux [] t

/-- The `_CURRENCY_NAME_MAP` dictionary, in insertion order. -/
def currencyNameMap : List (List Char × List Char) :=
  [("dólar".toList, "USD".toList), ("dolar".toList, "USD".toList),
   ("euro".toList, "EUR".toList),
   ("real".toList, "BRL".toList), ("reais".toList, "BRL".toList),
   ("libra".toList, "GBP".toList),
   ("iene".toList, "JPY".toList), ("yen".toList, "JPY".toList),
   ("bitcoin".toList, "BTC".toList), ("btc".toList, "BTC".toList)]

def currencyNameLookup (name : List Char) : List Char :=
  match currencyNameMap.find? (fun p => p.1 == name) with
  | some p => p.2
  | none => pyUpper (name.take 3)

/-- Attempt of `([a-zà-ú]+)\s+(?:para|to|->)\s+([a-zà-ú]+)` at a fixed
start position: a maximal letter run, at least one space, one of the
connectors (tried in order), at least one space, a maximal letter run. -/
def matchPairPatternAt (s : List Char) : Option (List Char × List Char) :=
  let r1 := s.takeWhile isCurrencyNameChar
  if r1.isEmpty then none else
  let a1 := s.drop r1.length
  let sp1 := a1.takeWhile pyIsSpace
  if sp1.isEmpty then none else
  let a2 := a1.drop sp1.length
  let conn : Option (List Char) :=
    if startsWith ("para".toList) a2 then some ("para".toList)
    else if startsWith ("to".toList) a2 then some ("to".toList)
    else if startsWith ("->".toList) a2 then some ("->".toList)
    else none
  match conn with
  | none => none
  | some k =>
    let a3 := a2.drop k.length
    let sp2 := a3.takeWhile pyIsSpace
    if sp2.isEmpty then none else
    let a4 := a3.drop sp2.length
    let r2 := a4.takeWhile isCurrencyNameChar
    if r2.isEmpty then none else some (r1, r2)

def searchPairPattern : List Char → Option (List Char × List Char)
  | [] => none
  | c :: t =>
    match matchPairPatternAt (c :: t) with
    | some r => some r
    | none => searchPairPattern t

/-- `_parse_exchange_text`. -/
def parse_exchange_text (text : List Char) : List Char × List Char :=
  if text.isEmpty then ("USD".toList, "BRL".toList) else
  let codes := findThreeLetterCodes text
  match codes with
  | c1 :: c2 :: _ => (pyUpper c1, pyUpper c2)
  | [c1] => (pyUpper c1, "BRL".toList)
  | [] =>
    let t := pyLower (pyStrip text)
    match searchPairPattern t with
    | some (b, tg) => (currencyNameLookup b, currencyNameLookup tg)
    | none =>
      match currencyNameMap.find? (fun p => containsSub p.1 t) with
      | some p => (p.2, "BRL".toList)
      | none => ("USD".toList, "BRL".toList)

/-! ## Data model: clients, score table, request log -/

/-- One row of `clientes.csv`, with the numeric columns already decoded
(the CSV string-to-number parsing is the out-of-scope storage layer). -/
structure ClientRow where
  cpf : List Char
  nome : List Char
  dataNascimento : List Char
  limiteAtual : ℚ
  score : Option ℤ
deriving DecidableEq, Repr

/-- One row of `score_limite.csv`. -/
structure ScoreRow where
  minScore : ℤ
  maxScore : ℤ
  maxAllowedLimit : ℚ
deriving DecidableEq, Repr

inductive Status | aprovado | rejeitado
deriving DecidableEq, Repr

/-- One row of `solicitacoes_aumento_limite.csv` (the append-only log). -/
structure ReqRow where
  cpfCliente : List Char
  dataHoraSolicitacao : List Char
  limiteAtual : ℚ
  novoLimiteSolicitado : ℚ
  statusPedido : Status
deriving DecidableEq, Repr

/-! ## `src/data/client_repository.py` -/

/-- `ClientRepository.find_by_cpf_and_dob`: normalize both inputs, fail on
empty, and return the first row whose normalized CPF and birth date match
(the returned record carries the normalized columns, as the source builds
it from the normalized copy of the frame). -/
def find_by_cpf_and_dob (rows : List ClientRow) (cpfRaw dobRaw : List Char) :
    Option ClientRow :=
  let cpf := normalize_cpf cpfRaw
  let dob := normalize_date dobRaw
  if cpf.isEmpty ∨ dob.isEmpty then none
  else
    match rows.find? (fun r =>
        normalize_cpf r.cpf == cpf && normalize_date r.dataNascimento == dob) with
    | some r => some { r with cpf := normalize_cpf r.cpf,
                              dataNascimento := normalize_date r.dataNascimento }
    | none => none

/-! ## `src/services/credit_agent.py` -/

/-- The client dictionary produced by `CreditAgent._find_client_row`. -/
structure CreditClient where
  cpf : List Char
  nome : List Char
  limiteAtual : ℚ
  score : Option ℤ
deriving DecidableEq, Repr

/-- `CreditAgent._find_client_row`: digits-only CPF match against the
(cached) clients table; fails on an empty digit string. -/
def find_client_row (clients : List ClientRow) (cpf : List Char) : Option CreditClient :=
  let digits := cpf.filter isDigitC
  if digits.isEmpty then none
  else
    match clients.find? (fun r => r.cpf.filter isDigitC == digits) with
    | some r => some { cpf := r.cpf.filter isDigitC, nome := r.nome,
                       limiteAtual := r.limiteAtual, score := r.score }
    | none => none

/-- `CreditAgent._allowed_limit_by_score`: the first table row whose
`[min_score, max_score]` range contains the score wins; `0.0` when the
table is empty or no row matches. -/
def allowed_limit_by_score (srows : List ScoreRow) (score : ℤ) : ℚ :=
  match srows.find? (fun r => decide (r.minScore ≤ score) && decide (score ≤ r.maxScore)) with
  | some r => r.maxAllowedLimit
  | none => 0

/-- Sum of the digits of a digit string (`sum(int(d) for d in digits)`). -/
def digitSum (digits : List Char) : ℕ :=
  (digits.map digitVal).sum

/-- `CreditAgent.consulta_limite` result. -/
structure ConsultaResult where
  ok : Bool
  cpf : List Char
  nome : List Char
  limiteAtual : ℚ
  score : Option ℤ
deriving DecidableEq, Repr

def consulta_limite (clients : List ClientRow) (cpf : List Char) : ConsultaResult :=
  match find_client_row clients cpf with
  | none => { ok := false, cpf := cpf, nome := [], limiteAtual := 0, score := none }
  | some row => { ok := true, cpf := row.cpf, nome := row.nome,
                  limiteAtual := row.limiteAtual, score := row.score }

/-- `CreditAgent.solicitar_aumento` result (the human-readable `reason`
f-string is represented by the score and allowed limit interpolated into
it). -/
structure AumentoResult where
  cpf : List Char
  nome : List Char
  limiteAtual : ℚ
  novoLimiteSolicitado : ℚ
  statusPedido : Status
  reasonScore : ℤ
  reasonAllowed : ℚ
deriving DecidableEq, Repr

/-- `CreditAgent.solicitar_aumento`: look the client up; derive a
deterministic score `300 + digit-sum(cpf) % 551` when none is on file;
compare the requested limit with the allowed limit for the score; append
one log row regardless of the outcome. Returns the result (`none` models
the `{"ok": False}` dictionary) together with the new log. -/
def solicitar_aumento (clients : List ClientRow) (srows : List ScoreRow)
    (log : List ReqRow) (now cpf : List Char) (novoLimite : ℚ) :
    Option AumentoResult × List ReqRow :=
  match find_client_row clients cpf with
  | none => (none, log)
  | some client =>
    let score : ℤ :=
      match client.score with
      | some s => s
      | none => 300 + ((digitSum (client.cpf.filter isDigitC) : ℤ) % 551)
    let allowed := allowed_limit_by_score srows score
    let status := if novoLimite ≤ allowed then Status.aprovado else Status.rejeitado
    let newLog := log ++ [{ cpfCliente := client.cpf, dataHoraSolicitacao := now,
                            limiteAtual := client.limiteAtual,
                            novoLimiteSolicitado := novoLimite, statusPedido := status }]
    (some { cpf := client.cpf, nome := client.nome, limiteAtual := client.limiteAtual,
            novoLimiteSolicitado := novoLimite, statusPedido := status,
            reasonScore := score, reasonAllowed := allowed }, newLog)

/-! ## Python numeric conversions used by the interview agent -/

/-- Python `float(text)` for the finite decimal forms the program feeds it
(optional sign, integer and/or fractional digits, optional exponent; the
`inf`/`nan` words and digit-group underscores are never produced by this
flow and are not modelled). `none` models `ValueError`. -/
def pyFloat (t : List Char) : Option ℚ :=
  let s := pyStrip t
  let (sgn, s1) : ℚ × List Char :=
    match s with
    | '+' :: r => (1, r)
    | '-' :: r => (-1, r)
    | _ => (1, s)
  let ip := s1.takeWhile isDigitC
  let r1 := s1.drop ip.length
  let (fp, r2) : List Char × List Char :=
    match r1 with
    | '.' :: r => (r.takeWhile isDigitC, r.drop (r.takeWhile isDigitC).length)
    | _ => ([], r1)
  if ip.isEmpty ∧ fp.isEmpty then none
  else
    let mant : ℚ := sgn * ((natOfDigits ip : ℚ) + (natOfDigits fp : ℚ) / (10 : ℚ) ^ fp.length)
    match r2 with
    | [] => some mant
    | e :: r3 =>
      if e = 'e' ∨ e = 'E' then
        let (esgn, r4) : ℤ × List Char :=
          match r3 with
          | '+' :: r => (1, r)
          | '-' :: r => (-1, r)
          | _ => (1, r3)
        let ed := r4.takeWhile isDigitC
        if ed.isEmpty ∨ ¬(r4.drop ed.length).isEmpty then none
        else some (mant * (10 : ℚ) ^ (esgn * (natOfDigits ed : ℤ)))
      else none

/-- Python `int(...)` on a float: truncation toward zero. -/
def pyTrunc (q : ℚ) : ℤ :=
  if 0 ≤ q then ⌊q⌋ else -⌊-q⌋

/-- Python `round(x)` / `round(x, 0)`: round half to even. -/
def pyRound (q : ℚ) : ℤ :=
  let f := ⌊q⌋
  let r := q - (f : ℚ)
  if r < 1/2 then f
  else if 1/2 < r then f + 1
  else if f % 2 = 0 then f else f + 1

/-! ## `src/services/interview_agent.py` -/

inductive IState
  | idle | askRenda | askEmprego | askDespesas | askDependentes | askDividas | finished
deriving DecidableEq, Repr

inductive Emprego | formal | autonomo | desempregado
deriving DecidableEq, Repr

/-- Dependents answer: an integer below three or the `"3+"` bucket. -/
inductive Dep | num (n : ℕ) | threePlus
deriving DecidableEq, Repr

inductive SimNao | sim | nao
deriving DecidableEq, Repr

structure Answers where
  rendaMensal : Option ℚ
  tipoEmprego : Option Emprego
  despesasFixas : Option ℚ
  dependentes : Option Dep
  temDividas : Option SimNao
deriving DecidableEq, Repr

def Answers.blank : Answers :=
  { rendaMensal := none, tipoEmprego := none, despesasFixas := none,
    dependentes := none, temDividas := none }

structure Retries where
  rendaMensal : ℕ
  tipoEmprego : ℕ
  despesasFixas : ℕ
  dependentes : ℕ
  temDividas : ℕ
deriving DecidableEq, Repr

def Retries.zero : Retries :=
  { rendaMensal := 0, tipoEmprego := 0, despesasFixas := 0, dependentes := 0, temDividas := 0 }

structure InterviewState where
  state : IState
  cpf : List Char
  clientRow : Option ClientRow
  answers : Answers
  retries : Retries
deriving DecidableEq, Repr

/-- `InterviewAgent.max_retries`. -/
def interviewMaxRetries : ℕ := 2

def peso_renda : ℚ := 30

def peso_emprego : Emprego → ℚ
  | .formal => 300
  | .autonomo => 200
  | .desempregado => 0

def peso_dividas : SimNao → ℚ
  | .sim => -100
  | .nao => 100

/-- Interview message tags, one per distinct assistant string of
`interview_agent.py`; `finishedSaved` carries the interpolated score. -/
inductive IMsg
  | notStarted
  | startNotFound
  | startIntro
  | rendaInvalid | rendaAbort
  | askEmprego
  | empregoInvalid | empregoAbort
  | askDespesas
  | despesasInvalid | despesasAbort
  | askDependentes
  | dependentesInvalid | dependentesAbort
  | askDividas
  | dividasInvalid | dividasAbort
  | finishedSaved (score : ℤ)
  | finishedNotSaved
  | invalidState
deriving DecidableEq, Repr

/-- The interview turn result dictionary
`{"assistant": ..., "done": ..., "redirect": ...}`. -/
structure ITurn where
  assistant : IMsg
  done : Bool
  redirect : Option (List Char)
deriving DecidableEq, Repr

/-- `InterviewAgent._find_client_row`: digits-only CPF comparison, no
empty-CPF guard (faithful to the source). -/
def interview_find_client (clients : List ClientRow) (cpf : List Char) :
    Option ClientRow :=
  clients.find? (fun r => r.cpf.filter isDigitC == cpf.filter isDigitC)

/-- Apply the score update to the first matching row. -/
def updateFirstScore (d : List Char) (sc : ℤ) : List ClientRow → List ClientRow
  | [] => []
  | r :: rs =>
    if r.cpf.filter isDigitC == d then { r with score := some sc } :: rs
    else r :: updateFirstScore d sc rs

/-- `InterviewAgent._update_client_score_in_csv`: `false` on an empty
table or unknown CPF; otherwise the success of the atomic rewrite is the
environment's `writeOk` (an IO failure leaves the file unchanged). The
`score_updated_at` timestamp column is presentation metadata and is not
modelled. -/
def update_client_score_in_csv (clients : List ClientRow) (cpf : List Char)
    (newScore : ℚ) (writeOk : Bool) : Bool × List ClientRow :=
  if clients.isEmpty then (false, clients)
  else
    let d := cpf.filter isDigitC
    if clients.any (fun r => r.cpf.filter isDigitC == d) then
      if writeOk then (true, updateFirstScore d (pyRound newScore) clients)
      else (false, clients)
    else (false, clients)

/-- `InterviewAgent._calculate_score`. -/
def calculate_score (a : Answers) : ℚ :=
  let renda := a.rendaMensal.getD 0
  let despesas := a.despesasFixas.getD 0
  let tipo := a.tipoEmprego.getD .desempregado
  let temDiv := a.temDividas.getD .sim
  let rendaComp := renda / (despesas + 1) * peso_renda
  let empComp := peso_emprego tipo
  let depComp : ℚ :=
    match a.dependentes with
    | some (.num 0) => 100
    | some (.num 1) => 80
    | some (.num 2) => 60
    | some (.num _) => 30
    | some .threePlus => 30
    | none => 30
  let divComp := peso_dividas temDiv
  let raw := rendaComp + empComp + depComp + divComp
  let score := if raw < 0 then (0 : ℚ) else if raw > 1000 then (1000 : ℚ) else raw
  ((pyRound score : ℤ) : ℚ)

/-- `InterviewAgent.start`. -/
def interview_start (clients : List ClientRow) (s : InterviewState) (cpf : List Char) :
    InterviewState × IMsg :=
  match interview_find_client clients cpf with
  | none => ({ s with cpf := cpf, clientRow := none, state := .idle }, .startNotFound)
  | some row =>
    ({ state := .askRenda, cpf := cpf, clientRow := some row,
       answers := Answers.blank, retries := Retries.zero }, .startIntro)

/-- `InterviewAgent.handle`: one interview turn. Returns the next
interview state, the turn result, and the clients table (updated on a
successful score persistence). -/
def interview_handle (writeOk : Bool) (clients : List ClientRow) (s : InterviewState)
    (userInput : List Char) : InterviewState × ITurn × List ClientRow :=
  match s.state with
  | .idle => (s, ⟨.notStarted, true, none⟩, clients)
  | .askRenda =>
    let text := pyStrip userInput
    match pyFloat (text.map (fun c => if c = ',' then '.' else c)) with
    | some v =>
      if v < 0 then
        let n := s.retries.rendaMensal + 1
        if n > interviewMaxRetries then
          ({ s with state := .idle, retries := { s.retries with rendaMensal := n } },
           ⟨.rendaAbort, true, none⟩, clients)
        else
          ({ s with retries := { s.retries with rendaMensal := n } },
           ⟨.rendaInvalid, false, none⟩, clients)
      else
        ({ s with answers := { s.answers with rendaMensal := some v }, state := .askEmprego },
         ⟨.askEmprego, false, none⟩, clients)
    | none =>
      let n := s.retries.rendaMensal + 1
      if n > interviewMaxRetries then
        ({ s with state := .idle, retries := { s.retries with rendaMensal := n } },
         ⟨.rendaAbort, true, none⟩, clients)
      else
        ({ s with retries := { s.retries with rendaMensal := n } },
         ⟨.rendaInvalid, false, none⟩, clients)
  | .askEmprego =>
    let text := pyStrip userInput
    let t := pyLower text
    let tipo : Option Emprego :=
      if containsAny [("formal".toList), ("empregado".toList), ("clt".toList)] t then
        some .formal
      else if containsAny [("autônomo".toList), ("autonomo".toList)] t then
        some .autonomo
      else if containsAny [("desempregado".toList), ("sem emprego".toList),
          ("desemprego".toList)] t then
        some .desempregado
      else none
    match tipo with
    | some e =>
      ({ s with answers := { s.answers with tipoEmprego := some e }, state := .askDespesas },
       ⟨.askDespesas, false, none⟩, clients)
    | none =>
      let n := s.retries.tipoEmprego + 1
      if n > interviewMaxRetries then
        ({ s with state := .idle, retries := { s.retries with tipoEmprego := n } },
         ⟨.empregoAbort, true, none⟩, clients)
      else
        ({ s with retries := { s.retries with tipoEmprego := n } },
         ⟨.empregoInvalid, false, none⟩, clients)
  | .askDespesas =>
    let text := pyStrip userInput
    match pyFloat (text.map (fun c => if c = ',' then '.' else c)) with
    | some v =>
      if v < 0 then
        let n := s.retries.despesasFixas + 1
        if n > interviewMaxRetries then
          ({ s with state := .idle, retries := { s.retries with despesasFixas := n } },
           ⟨.despesasAbort, true, none⟩, clients)
        else
          ({ s with retries := { s.retries with despesasFixas := n } },
           ⟨.despesasInvalid, false, none⟩, clients)
      else
        ({ s with answers := { s.answers with despesasFixas := some v },
                  state := .askDependentes },
         ⟨.askDependentes, false, none⟩, clients)
    | none =>
      let n := s.retries.despesasFixas + 1
      if n > interviewMaxRetries then
        ({ s with state := .idle, retries := { s.retries with despesasFixas := n } },
         ⟨.despesasAbort, true, none⟩, clients)
      else
        ({ s with retries := { s.retries with despesasFixas := n } },
         ⟨.despesasInvalid, false, none⟩, clients)
  | .askDependentes =>
    let text := pyStrip userInput
    match pyFloat text with
    | some q =>
      let val := pyTrunc q
      if val < 0 then
        let n := s.retries.dependentes + 1
        if n > interviewMaxRetries then
          ({ s with state := .idle, retries := { s.retries with dependentes := n } },
           ⟨.dependentesAbort, true, none⟩, clients)
        else
          ({ s with retries := { s.retries with dependentes := n } },
           ⟨.dependentesInvalid, false, none⟩, clients)
      else
        let dep := if val < 3 then Dep.num val.toNat else Dep.threePlus
        ({ s with answers := { s.answers with dependentes := some dep },
                  state := .askDividas },
         ⟨.askDividas, false, none⟩, clients)
    | none =>
      let n := s.retries.dependentes + 1
      if n > interviewMaxRetries then
        ({ s with state := .idle, retries := { s.retries with dependentes := n } },
         ⟨.dependentesAbort, true, none⟩, clients)
      else
        ({ s with retries := { s.retries with dependentes := n } },
         ⟨.dependentesInvalid, false, none⟩, clients)
  | .askDividas =>
    let text := pyStrip userInput
    let t := pyLower text
    let tem : Option SimNao :=
      if containsAny [("sim".toList), ("s".toList), ("tenho".toList),
          ("possuo".toList)] t then some .sim
      else if containsAny [("não".toList), ("nao".toList), ("n".toList),
          ("não tenho".toList), ("nao tenho".toList)] t then some .nao
      else none
    match tem with
    | some v =>
      let a := { s.answers with temDividas := some v }
      let newScore := calculate_score a
      let res := update_client_score_in_csv clients s.cpf newScore writeOk
      if res.1 then
        ({ s with answers := a, state := .finished },
         ⟨.finishedSaved (pyRound newScore), true, some ("credit".toList)⟩, res.2)
      else
        ({ s with answers := a, state := .finished },
         ⟨.finishedNotSaved, true, some ("credit".toList)⟩, res.2)
    | none =>
      let n := s.retries.temDividas + 1
      if n > interviewMaxRetries then
        ({ s with state := .idle, retries := { s.retries with temDividas := n } },
         ⟨.dividasAbort, true, none⟩, clients)
      else
        ({ s with retries := { s.retries with temDividas := n } },
         ⟨.dividasInvalid, false, none⟩, clients)
  | .finished => (s, ⟨.invalidState, true, none⟩, clients)

/-! ## `src/services/triage_agent.py` — state machine -/

inductive Action | credit | exchange | interview
deriving DecidableEq, Repr

/-- The enumerated values `TriageAgent.state` takes (the source stores
them as strings; `final` is the terminal value, and falls through the
dispatch chain to the terminating fallback). -/
inductive TState
  | askCpf | askDob | postAuth | confirmRedirectCredit
  | askCreditAction | askCreditAmount | exchangeAskCurrency
  | interviewRunning | offerInterview | askMore
  | creditMoreMenu | exchangeMoreMenu | final
deriving DecidableEq, Repr

/-- Keys of the `FALLBACK` dictionary in `ai_dialogue.py`
(`generate_message` is a pure lookup; its `user_message` kwarg is
ignored). -/
inductive FKey
  | greeting | askCpf | askDob | askCreditAction | askCreditAmount
  | askExchange | askMore | actionResult
deriving DecidableEq, Repr

/-- Assistant message tags, one per distinct message built in
`triage_agent.py`, carrying the data the source interpolates into the
corresponding f-string. -/
inductive Msg
  | fallbackMsg (k : FKey)
  | exitGoodbye
  | needAuthFirst
  | retryMsg (remaining : ℕ)
  | authFailedFinal
  | postAuthMenu (name : List Char)
  | dobFormatIncorrect
  | creditUnavailable
  | needAuthInterview
  | interviewUnavailableOffer
  | exchangeUnavailable
  | pleaseYesNo
  | notFoundAskMore
  | currentLimitMsg (limite : ℚ) (name : List Char)
  | notFoundAskMore2
  | showLimitAskAmount (limite : ℚ)
  | cannotProcess
  | approvedMsg (res : AumentoResult) (name : List Char)
  | rejectedOfferInterview (res : AumentoResult)
  | amountOrNo
  | rateFail (m : List Char)
  | rateOk (base target : List Char) (rate : ℚ)
  | interviewStartMsg (m : IMsg)
  | interviewMsgWrap (m : IMsg)
  | interviewThenCredit (m : IMsg)
  | interviewThenMenu (m : IMsg) (name : List Char)
  | offerNotUnderstood
  | interviewNotImplemented
  | goodbye
  | exchangeMorePrompt
  | creditMorePrompt
  | askMoreClarify
  | creditMoreNotUnderstood
  | exchangeMoreNotUnderstood
  | atendimentoFinalizado
deriving DecidableEq, Repr

/-- The `{"assistant": ..., "done": ...}` dictionary `handle_user`
returns. -/
structure Reply where
  assistant : Msg
  done : Bool
deriving DecidableEq, Repr

/-- The rate-provider result consumed in `exchange_ask_currency`
(`ExchangeAgent.get_rate` is an HTTP call, out of scope). -/
structure RateRes where
  ok : Bool
  rate : ℚ
  base : List Char
  target : List Char
  msg : List Char
deriving DecidableEq, Repr

/-- Read-only collaborators and environment effects: the two cached
loads of `clientes.csv` (`ClientRepository` and `CreditAgent` each cache
the table at first use and never invalidate), the score table, the rate
provider, whether the interview agent's atomic rewrite succeeds, the
timestamp, and the `available_agents` flags. -/
structure Env where
  repoClients : List ClientRow
  creditClients : List ClientRow
  scoreRows : List ScoreRow
  getRate : List Char → List Char → RateRes
  writeOk : Bool
  now : List Char
  availCredit : Bool
  availInterview : Bool
  availExchange : Bool

/-- Mutable on-disk data: the live `clientes.csv` (read and rewritten by
the interview agent) and the append-only increase-request log. -/
structure World where
  interviewClients : List ClientRow
  log : List ReqRow
deriving DecidableEq, Repr

/-- The mutable fields of `TriageAgent` (one conversation session). -/
structure Session where
  state : TState
  attempts : ℕ
  maxAttempts : ℕ
  cpf : List Char
  dob : List Char
  authenticated : Bool
  authenticatedName : Option (List Char)
  lastAction : Option Action
  history : List Action
  awaitingAmount : Bool
  interview : InterviewState
deriving DecidableEq, Repr

/-- `_push_history`: append and keep the last 20 entries. -/
def pushHistory (h : List Action) (a : Action) : List Action :=
  let h2 := h ++ [a]
  if 20 < h2.length then h2.drop (h2.length - 20) else h2

/-- `self.authenticated_name or "cliente"`. -/
def nameOrCliente : Option (List Char) → List Char
  | some n => if n.isEmpty then "cliente".toList else n
  | none => "cliente".toList

def exitKeywords : List (List Char) :=
  [("encerrar".toList), ("fim".toList), ("sair".toList), ("cancelar".toList),
   ("tchau".toList)]

def simKeys : List (List Char) :=
  [("sim".toList), ("s".toList), ("quero".toList), ("ok".toList), ("yes".toList)]

def naoKeys : List (List Char) :=
  [("não".toList), ("nao".toList), ("n".toList)]

/-- Word-boundary search `re.search(r"\b(...)\b", txt)` for one keyword:
an occurrence with no word character on either side. `prev` is the
character just before the current position. -/
def containsWordAux (kw : List Char) (prev : Option Char) : List Char → Bool
  | [] => false
  | c :: t =>
    (startsWith kw (c :: t)
      && (match prev with
          | none => true
          | some p => !isWordChar p)
      && (match ((c :: t).drop kw.length).head? with
          | none => true
          | some q => !isWordChar q))
    || containsWordAux kw (some c) t

def containsWordAny (kws : List (List Char)) (t : List Char) : Bool :=
  kws.any (fun k => containsWordAux k none t)

/-- The shared "consultar limite" block (`ask_credit_action` lines
510-526, repeated verbatim in `credit_more_menu` lines 841-857). -/
def consulta_block (env : Env) (w : World) (s : Session) : Session × World × Reply :=
  let info := consulta_limite env.creditClients s.cpf
  if info.ok then
    let name := nameOrCliente s.authenticatedName
    ({ s with lastAction := some .credit, history := pushHistory s.history .credit,
              state := .askMore, awaitingAmount := false }, w,
     ⟨.currentLimitMsg info.limiteAtual name, false⟩)
  else
    ({ s with state := .askMore }, w, ⟨.notFoundAskMore, false⟩)

/-- The "submit the increase request" block, repeated three times in
`ask_credit_amount` (lines 563-599, 602-628, 641-669) with identical
behaviour. -/
def submit_increase (env : Env) (w : World) (s : Session) (amt : ℚ) :
    Session × World × Reply :=
  let r := solicitar_aumento env.creditClients env.scoreRows w.log env.now s.cpf amt
  match r.1 with
  | none => ({ s with state := .askMore }, { w with log := r.2 }, ⟨.cannotProcess, false⟩)
  | some res =>
    let name := nameOrCliente s.authenticatedName
    let s2 := { s with lastAction := some .credit, history := pushHistory s.history .credit }
    if res.statusPedido = .aprovado then
      ({ s2 with state := .askMore, awaitingAmount := false }, { w with log := r.2 },
       ⟨.approvedMsg res name, false⟩)
    else
      ({ s2 with state := .offerInterview }, { w with log := r.2 },
       ⟨.rejectedOfferInterview res, false⟩)

def handle_ask_cpf (env : Env) (w : World) (s : Session) (text : List Char) :
    Session × World × Reply :=
  let cpfFound := extract_cpf text
  let dateInMsg := extract_date text
  if cpfFound.isEmpty then (s, w, ⟨.fallbackMsg .askCpf, false⟩)
  else
    let s1 := { s with cpf := normalize_cpf cpfFound }
    if dateInMsg.isEmpty then
      ({ s1 with state := .askDob }, w, ⟨.fallbackMsg .askDob, false⟩)
    else
      let s2 := { s1 with dob := normalize_date dateInMsg }
      match find_by_cpf_and_dob env.repoClients s2.cpf s2.dob with
      | some cand =>
        let name := if cand.nome.isEmpty then "cliente".toList else cand.nome
        ({ s2 with authenticated := true, authenticatedName := some name,
                   state := .postAuth, awaitingAmount := false }, w,
         ⟨.postAuthMenu name, false⟩)
      | none =>
        let s3 := { s2 with attempts := s2.attempts + 1 }
        let remaining := s3.maxAttempts - s3.attempts
        if s3.attempts ≥ s3.maxAttempts then
          ({ s3 with state := .final, awaitingAmount := false }, w,
           ⟨.authFailedFinal, true⟩)
        else
          ({ s3 with cpf := [], dob := [], state := .askCpf, awaitingAmount := false }, w,
           ⟨.retryMsg remaining, false⟩)

def handle_ask_dob (env : Env) (w : World) (s : Session) (text : List Char) :
    Session × World × Reply :=
  let dobFound := extract_date text
  if dobFound.isEmpty then (s, w, ⟨.dobFormatIncorrect, false⟩)
  else
    let s1 := { s with dob := normalize_date dobFound }
    match find_by_cpf_and_dob env.repoClients s1.cpf s1.dob with
    | some cand =>
      let name := if cand.nome.isEmpty then "cliente".toList else cand.nome
      ({ s1 with authenticated := true, authenticatedName := some name,
                 state := .postAuth, awaitingAmount := false }, w,
       ⟨.postAuthMenu name, false⟩)
    | none =>
      let s2 := { s1 with attempts := s1.attempts + 1 }
      let remaining := s2.maxAttempts - s2.attempts
      if s2.attempts ≥ s2.maxAttempts then
        ({ s2 with state := .final, awaitingAmount := false }, w,
         ⟨.authFailedFinal, true⟩)
      else
        ({ s2 with cpf := [], dob := [], state := .askCpf, awaitingAmount := false }, w,
         ⟨.retryMsg remaining, false⟩)

def handle_post_auth (env : Env) (w : World) (s : Session) (text l : List Char) :
    Session × World × Reply :=
  let choice0 := interpret_action_choice text
  let choice : Option Choice :=
    match choice0 with
    | some c => some c
    | none =>
      if containsAny [("de novo".toList), ("novamente".toList), ("repetir".toList),
          ("igual da outra vez".toList)] l ∧ ¬s.history.isEmpty then
        match s.history.getLast? with
        | some .credit => some .credito
        | some .exchange => some .cambio
        | some .interview => some .interview
        | none => none
      else none
  match choice with
  | some .credito =>
    if env.availCredit then
      ({ s with lastAction := some .credit, history := pushHistory s.history .credit,
                state := .askCreditAction, awaitingAmount := false }, w,
       ⟨.fallbackMsg .askCreditAction, false⟩)
    else (s, w, ⟨.creditUnavailable, false⟩)
  | some .interview =>
    if env.availInterview then
      if ¬s.authenticated ∨ s.cpf.isEmpty then (s, w, ⟨.needAuthInterview, false⟩)
      else
        let r := interview_start w.interviewClients s.interview s.cpf
        ({ s with lastAction := some .interview,
                  history := pushHistory s.history .interview,
                  interview := r.1, state := .interviewRunning,
                  awaitingAmount := false }, w,
         ⟨.interviewStartMsg r.2, false⟩)
    else
      ({ s with state := .confirmRedirectCredit }, w, ⟨.interviewUnavailableOffer, false⟩)
  | some .cambio =>
    if env.availExchange then
      ({ s with lastAction := some .exchange, history := pushHistory s.history .exchange,
                state := .exchangeAskCurrency, awaitingAmount := false }, w,
       ⟨.fallbackMsg .askExchange, false⟩)
    else (s, w, ⟨.exchangeUnavailable, false⟩)
  | none => (s, w, ⟨.postAuthMenu (nameOrCliente s.authenticatedName), false⟩)

def handle_confirm_redirect (w : World) (s : Session) (l : List Char) :
    Session × World × Reply :=
  if containsAny simKeys l then
    ({ s with lastAction := some .credit, history := pushHistory s.history .credit,
              state := .askCreditAction, awaitingAmount := false }, w,
     ⟨.fallbackMsg .askCreditAction, false⟩)
  else if containsAny naoKeys l then
    ({ s with state := .askMore }, w, ⟨.fallbackMsg .askMore, false⟩)
  else (s, w, ⟨.pleaseYesNo, false⟩)

def handle_ask_credit_action (env : Env) (w : World) (s : Session) (text : List Char) :
    Session × World × Reply :=
  match interpret_credit_action text with
  | none => (s, w, ⟨.fallbackMsg .askCreditAction, false⟩)
  | some .consultar => consulta_block env w s
  | some .solicitar =>
    ({ s with state := .askCreditAmount, awaitingAmount := false }, w,
     ⟨.fallbackMsg .askCreditAmount, false⟩)

/-- `ask_credit_amount`: the source's five prioritized cases (show the
limit first; the awaiting-amount continuation; limit question plus an
amount in one message; unparseable amount; direct submission), organized by
whether an amount was parsed. -/
def handle_ask_credit_amount (env : Env) (w : World) (s : Session) (text l : List Char) :
    Session × World × Reply :=
  let amount := extract_amount text
  let asksLimit := is_asking_current_limit text
  match amount with
  | none =>
    if asksLimit then
      let info := consulta_limite env.creditClients s.cpf
      if info.ok then
        ({ s with awaitingAmount := true }, w,
         ⟨.showLimitAskAmount info.limiteAtual, false⟩)
      else ({ s with state := .askMore }, w, ⟨.notFoundAskMore2, false⟩)
    else if s.awaitingAmount then
      if containsAny naoKeys l then
        ({ s with awaitingAmount := false, state := .askMore }, w,
         ⟨.fallbackMsg .askMore, false⟩)
      else (s, w, ⟨.amountOrNo, false⟩)
    else (s, w, ⟨.fallbackMsg .askCreditAmount, false⟩)
  | some amt =>
    if s.awaitingAmount then
      if containsAny naoKeys l then
        ({ s with awaitingAmount := false, state := .askMore }, w,
         ⟨.fallbackMsg .askMore, false⟩)
      else submit_increase env w { s with awaitingAmount := false } amt
    else submit_increase env w s amt

def handle_exchange_currency (env : Env) (w : World) (s : Session) (text : List Char) :
    Session × World × Reply :=
  let bt := parse_exchange_text text
  let s1 := { s with awaitingAmount := false }
  let res := env.getRate bt.1 bt.2
  if res.ok then
    ({ s1 with lastAction := some .exchange, history := pushHistory s1.history .exchange,
               state := .askMore }, w,
     ⟨.rateOk res.base res.target res.rate, false⟩)
  else
    ({ s1 with lastAction := some .exchange, history := pushHistory s1.history .exchange,
               state := .askMore }, w,
     ⟨.rateFail res.msg, false⟩)

def handle_interview_running (env : Env) (w : World) (s : Session) (text : List Char) :
    Session × World × Reply :=
  let r := interview_handle env.writeOk w.interviewClients s.interview text
  let s1 := { s with interview := r.1 }
  let w1 := { w with interviewClients := r.2.2 }
  let out := r.2.1
  if out.done then
    if out.redirect = some ("credit".toList) then
      ({ s1 with lastAction := some .credit, history := pushHistory s1.history .credit,
                 state := .askCreditAction, awaitingAmount := false }, w1,
       ⟨.interviewThenCredit out.assistant, false⟩)
    else
      ({ s1 with state := .postAuth }, w1,
       ⟨.interviewThenMenu out.assistant (nameOrCliente s1.authenticatedName), false⟩)
  else (s1, w1, ⟨.interviewMsgWrap out.assistant, false⟩)

def handle_offer_interview (env : Env) (w : World) (s : Session) (l : List Char) :
    Session × World × Reply :=
  if containsAny simKeys l then
    if env.availInterview then
      if ¬s.authenticated ∨ s.cpf.isEmpty then (s, w, ⟨.needAuthInterview, false⟩)
      else
        let r := interview_start w.interviewClients s.interview s.cpf
        ({ s with lastAction := some .interview,
                  history := pushHistory s.history .interview,
                  interview := r.1, state := .interviewRunning,
                  awaitingAmount := false }, w,
         ⟨.interviewStartMsg r.2, false⟩)
    else ({ s with state := .askMore }, w, ⟨.interviewNotImplemented, false⟩)
  else if containsAny naoKeys l then
    ({ s with state := .askMore }, w, ⟨.fallbackMsg .askMore, false⟩)
  else (s, w, ⟨.offerNotUnderstood, false⟩)

def handle_ask_more (w : World) (s : Session) (l : List Char) :
    Session × World × Reply :=
  if containsAny [("não".toList), ("nao".toList), ("n".toList),
      ("não, obrigado".toList), ("nao, obrigado".toList)] l then
    ({ s with state := .final, awaitingAmount := false }, w, ⟨.goodbye, true⟩)
  else if containsSub ("menu".toList) l || containsSub ("opções".toList) l
      || containsSub ("opcoes".toList) l then
    ({ s with state := .postAuth }, w,
     ⟨.postAuthMenu (nameOrCliente s.authenticatedName), false⟩)
  else if containsAny [("sim".toList), ("s".toList), ("yes".toList), ("ok".toList),
      ("claro".toList)] l then
    match s.lastAction with
    | some .exchange =>
      ({ s with state := .exchangeMoreMenu }, w, ⟨.exchangeMorePrompt, false⟩)
    | some .credit =>
      ({ s with state := .creditMoreMenu }, w, ⟨.creditMorePrompt, false⟩)
    | _ =>
      ({ s with state := .postAuth }, w,
       ⟨.postAuthMenu (nameOrCliente s.authenticatedName), false⟩)
  else if containsWordAny [("cotar".toList), ("cotação".toList), ("cotacao".toList),
      ("moeda".toList)] l then
    ({ s with lastAction := some .exchange, history := pushHistory s.history .exchange,
              state := .exchangeAskCurrency, awaitingAmount := false }, w,
     ⟨.fallbackMsg .askExchange, false⟩)
  else if containsWordAny [("limite".toList), ("crédito".toList), ("credito".toList),
      ("aumento".toList)] l then
    ({ s with lastAction := some .credit, history := pushHistory s.history .credit,
              state := .askCreditAction, awaitingAmount := false }, w,
     ⟨.fallbackMsg .askCreditAction, false⟩)
  else (s, w, ⟨.askMoreClarify, false⟩)

def handle_credit_more (env : Env) (w : World) (s : Session) (text l : List Char) :
    Session × World × Reply :=
  if containsSub ("menu".toList) l then
    ({ s with state := .postAuth }, w,
     ⟨.postAuthMenu (nameOrCliente s.authenticatedName), false⟩)
  else
    match interpret_credit_action text with
    | some .consultar => consulta_block env w s
    | some .solicitar =>
      ({ s with lastAction := some .credit, history := pushHistory s.history .credit,
                state := .askCreditAmount, awaitingAmount := false }, w,
       ⟨.fallbackMsg .askCreditAmount, false⟩)
    | none => (s, w, ⟨.creditMoreNotUnderstood, false⟩)

def handle_exchange_more (w : World) (s : Session) (l : List Char) :
    Session × World × Reply :=
  if containsSub ("menu".toList) l then
    ({ s with state := .postAuth }, w,
     ⟨.postAuthMenu (nameOrCliente s.authenticatedName), false⟩)
  else if containsAny [("cotação".toList), ("cotacao".toList), ("moeda".toList),
      ("outra".toList), ("mais".toList), ("sim".toList), ("s".toList)] l then
    ({ s with lastAction := some .exchange, history := pushHistory s.history .exchange,
              state := .exchangeAskCurrency, awaitingAmount := false }, w,
     ⟨.fallbackMsg .askExchange, false⟩)
  else if containsAny naoKeys l then
    ({ s with state := .final, awaitingAmount := false }, w, ⟨.goodbye, true⟩)
  else (s, w, ⟨.exchangeMoreNotUnderstood, false⟩)

/-- The state-dispatch chain of `handle_user` (the sequence of
`if self.state == ...` blocks); the `final` state matches no dispatch
case and falls through to the terminating fallback (lines 903-908). -/
def dispatch_state (env : Env) (w : World) (s1 : Session) (text l : List Char) :
    Session × World × Reply :=
  match s1.state with
  | .askCpf => handle_ask_cpf env w s1 text
  | .askDob => handle_ask_dob env w s1 text
  | .postAuth => handle_post_auth env w s1 text l
  | .confirmRedirectCredit => handle_confirm_redirect w s1 l
  | .askCreditAction => handle_ask_credit_action env w s1 text
  | .askCreditAmount => handle_ask_credit_amount env w s1 text l
  | .exchangeAskCurrency => handle_exchange_currency env w s1 text
  | .interviewRunning => handle_interview_running env w s1 text
  | .offerInterview => handle_offer_interview env w s1 l
  | .askMore => handle_ask_more w s1 l
  | .creditMoreMenu => handle_credit_more env w s1 text l
  | .exchangeMoreMenu => handle_exchange_more w s1 l
  | .final =>
    ({ s1 with state := .final, awaitingAmount := false }, w,
     ⟨.atendimentoFinalizado, true⟩)

/-- `TriageAgent.handle_user`: the single entry point. Global
pre-processing (exit keywords; defensive recovery of an authenticated
session stuck in an authentication state; the pre-authentication numeric
menu-choice guard), then dispatch on the state. -/
def handle_user (env : Env) (w : World) (s : Session) (userText : List Char) :
    Session × World × Reply :=
  let text := pyStrip userText
  let l := pyLower text
  if containsAny exitKeywords l then
    ({ s with state := .final, awaitingAmount := false }, w, ⟨.exitGoodbye, true⟩)
  else
    let s1 :=
      if s.authenticated = true ∧ (s.state = .askCpf ∨ s.state = .askDob) then
        { s with state := .postAuth }
      else s
    if s1.authenticated = false ∧ is_short_numeric_choice text = true then
      (s1, w, ⟨.needAuthFirst, false⟩)
    else dispatch_state env w s1 text l

/-- The interview score formula as the specification states it
(§4.2): `(income / (expenses + 1)) * 30 + employment weight + dependents
weight + debt weight`, clamped to `[0, 1000]` and rounded to the nearest
integer. Stated separately from `calculate_score` to compare the code
against the spec's wording. -/
def specInterviewScore (renda despesas : ℚ) (e : Emprego) (dep : Dep) (dv : SimNao) : ℤ :=
  let empW : ℚ :=
    match e with
    | .formal => 300
    | .autonomo => 200
    | .desempregado => 0
  let depW : ℚ :=
    match dep with
    | .num 0 => 100
    | .num 1 => 80
    | .num 2 => 60
    | .num _ => 30
    | .threePlus => 30
  let divW : ℚ :=
    match dv with
    | .sim => -100
    | .nao => 100
  let raw := renda / (despesas + 1) * 30 + empW + depW + divW
  pyRound (if raw < 0 then 0 else if raw > 1000 then 1000 else raw)

/-! ## Concrete fixtures used by witnesses and counterexamples -/

def sampleRate : RateRes :=
  { ok := true, rate := 5, base := "USD".toList, target := "BRL".toList, msg := [] }

def sampleEnv : Env :=
  { repoClients := [], creditClients := [], scoreRows := [],
    getRate := fun _ _ => sampleRate,
    writeOk := true, now := [], availCredit := true, availInterview := true,
    availExchange := true }

def sampleInterviewState : InterviewState :=
  { state := .idle, cpf := [], clientRow := none, answers := Answers.blank,
    retries := Retries.zero }

def sampleWorld : World := { interviewClients := [], log := [] }

/-- An authenticated session sitting in the `ask_more` hub. -/
def sampleAskMore : Session :=
  { state := .askMore, attempts := 0, maxAttempts := 3, cpf := "12345678901".toList,
    dob := "1990-01-01".toList, authenticated := true,
    authenticatedName := some ("Ana".toList), lastAction := some .credit,
    history := [.credit], awaitingAmount := false, interview := sampleInterviewState }

/-- An unauthenticated session that exhausted its attempts (state `final`,
reachable after three failed lookups). -/
def sampleFinalUnauth : Session :=
  { sampleAskMore with
    state := .final, authenticated := false,
    authenticatedName := none, attempts := 3, lastAction := none, history := [] }

/-- A fresh unauthenticated session in `ask_cpf`. -/
def sampleFresh : Session :=
  { sampleAskMore with
    state := .askCpf, authenticated := false,
    authenticatedName := none, cpf := [], dob := [], lastAction := none, history := [] }

/-- An unauthenticated session waiting for the birth date. -/
def sampleAskDob : Session :=
  { sampleFresh with state := .askDob, cpf := "12345678901".toList }

/-- Interview stopped at the final (debts) question with the earlier four
answers captured. -/
def sampleDividas : InterviewState :=
  { state := .askDividas, cpf := "12345678901".toList, clientRow := none,
    answers := { rendaMensal := some 2000, tipoEmprego := some .formal,
                 despesasFixas := some 500, dependentes := some (.num 1),
                 temDividas := none },
    retries := Retries.zero }

def sampleClient : ClientRow :=
  { cpf := "12345678901".toList, nome := "Ana".toList,
    dataNascimento := "1990-01-01".toList, limiteAtual := 1000, score := none }

def sampleScoreTable : List ScoreRow :=
  [{ minScore := 0, maxScore := 500, maxAllowedLimit := 1000 },
   { minScore := 501, maxScore := 1000, maxAllowedLimit := 5000 }]

/-- A complete set of interview answers. -/
def sampleAnswersComplete : Answers :=
  { rendaMensal := some 2000, tipoEmprego := some .formal, despesasFixas := some 500,
    dependentes := some (.num 1), temDividas := some .nao }

/-! ## Helper lemmas -/

/-- Characters that can occur in a short numeric menu choice. -/
def allowedChoiceChar (c : Char) : Bool :=
  isDigitC c || c = '(' || c = '[' || c = ')' || c = ']' || c = '.' || c = '-' ||
    pyIsSpace c

theorem mem_dropWhile_or {p : Char → Bool} {c : Char} :
    ∀ {t : List Char}, c ∈ t → c ∈ t.dropWhile p ∨ p c = true := by
  intro t hc
  induction t with
  | nil => simp at hc
  | cons a r ih =>
    rw [List.dropWhile_cons]
    rcases List.mem_cons.mp hc with h | h
    · subst h
      by_cases hp : p c = true
      · exact Or.inr hp
      · simp [hp]
    · by_cases hp : p a = true
      · simpa [hp] using ih h
      · simp [hp, hc]

theorem mem_pyStrip_or {c : Char} {t : List Char} (hc : c ∈ t) :
    c ∈ pyStrip t ∨ pyIsSpace c = true := by
  rcases mem_dropWhile_or (p := pyIsSpace) hc with h1 | h1
  · have h2 : c ∈ (t.dropWhile pyIsSpace).reverse := List.mem_reverse.mpr h1
    rcases mem_dropWhile_or (p := pyIsSpace) h2 with h3 | h3
    · exact Or.inl (List.mem_reverse.mpr h3)
    · exact Or.inr h3
  · exact Or.inr h1

theorem mem_stripOpenBracket_or {c : Char} :
    ∀ {t : List Char}, c ∈ t → c ∈ stripOpenBracket t ∨ c = '(' ∨ c = '[' := by
  intro t hc
  rcases t with _ | ⟨a, r⟩
  · simp at hc
  · rw [stripOpenBracket]
    by_cases ha : a = '(' ∨ a = '['
    · rcases List.mem_cons.mp hc with rfl | hc1
      · exact Or.inr ha
      · simp only [ha, if_true]
        exact Or.inl hc1
    · simp only [ha, if_false]
      exact Or.inl hc

theorem fullmatchBracketChoice_strip_chars {t : List Char}
    (h : fullmatchBracketChoice t = true) :
    ∀ c ∈ stripOpenBracket t, allowedChoiceChar c = true := by
  intro c hc
  unfold fullmatchBracketChoice at h
  rcases hu : stripOpenBracket t with _ | ⟨d, rest⟩
  · rw [hu] at hc
    simp at hc
  rw [hu] at h hc
  simp only [Bool.and_eq_true] at h
  obtain ⟨hd1, h2⟩ := h
  rcases List.mem_cons.mp hc with rfl | hc1
  · simp [allowedChoiceChar, hd1]
  rcases rest with _ | ⟨e, rest2⟩
  · simp at hc1
  rcases rest2 with _ | ⟨f, rest3⟩
  · replace h2 : (if isDigitC e = true then true
        else (decide (e = ')') || decide (e = ']')) && List.isEmpty ([] : List Char))
        = true := h2
    have hce : c = e := by simpa using hc1
    subst hce
    cases he : isDigitC c with
    | true => simp [allowedChoiceChar, he]
    | false =>
      rw [he] at h2
      simp only [Bool.false_eq_true, if_false, Bool.and_eq_true] at h2
      rcases Bool.or_eq_true_iff.mp h2.1 with h5 | h5 <;>
        simp only [decide_eq_true_eq] at h5 <;> simp [allowedChoiceChar, h5]
  · replace h2 : (if isDigitC e = true then
        (decide (f = ')') || decide (f = ']')) && rest3.isEmpty
        else (decide (e = ')') || decide (e = ']')) && (f :: rest3).isEmpty) = true := h2
    cases he : isDigitC e with
    | false =>
      rw [he] at h2
      simp at h2
    | true =>
      rw [he] at h2
      simp only [if_true, Bool.and_eq_true] at h2
      obtain ⟨h3, h4⟩ := h2
      rw [List.isEmpty_iff] at h4
      subst h4
      rcases List.mem_cons.mp hc1 with rfl | hc2
      · simp [allowedChoiceChar, he]
      · have hcf : c = f := by simpa using hc2
        subst hcf
        rcases Bool.or_eq_true_iff.mp h3 with h5 | h5 <;>
          simp only [decide_eq_true_eq] at h5 <;> simp [allowedChoiceChar, h5]

theorem fullmatchBracketChoice_chars {t : List Char}
    (h : fullmatchBracketChoice t = true) : ∀ c ∈ t, allowedChoiceChar c = true := by
  intro c hc
  rcases mem_stripOpenBracket_or hc with h1 | h1
  · exact fullmatchBracketChoice_strip_chars h c h1
  · rcases h1 with rfl | rfl <;> simp [allowedChoiceChar]

theorem matchDigitPunct_chars {t : List Char}
    (h : matchDigitPunct t = true) : ∀ c ∈ t, allowedChoiceChar c = true := by
  intro c hc
  rcases t with _ | ⟨a, r⟩
  · simp at hc
  simp only [matchDigitPunct, Bool.and_eq_true] at h
  rcases List.mem_cons.mp hc with rfl | hc1
  · simp [allowedChoiceChar, h.1]
  · have := (List.all_eq_true.mp h.2) c hc1
    rcases Bool.or_eq_true_iff.mp this with h3 | h3
    · rcases Bool.or_eq_true_iff.mp h3 with h4 | h4 <;>
        simp only [decide_eq_true_eq] at h4 <;>
        simp [allowedChoiceChar, h4]
    · simp [allowedChoiceChar, h3]

theorem short_numeric_chars {t : List Char}
    (h : is_short_numeric_choice t = true) : ∀ c ∈ t, allowedChoiceChar c = true := by
  intro c hc
  unfold is_short_numeric_choice at h
  by_cases he : t.isEmpty = true
  · rw [List.isEmpty_iff] at he
    subst he
    simp at hc
  · simp only [he, Bool.false_eq_true, if_false, Bool.or_eq_true] at h
    rcases mem_pyStrip_or hc with h1 | h1
    · rcases h with h2 | h2
      · exact fullmatchBracketChoice_chars h2 c h1
      · exact matchDigitPunct_chars h2 c h1
    · simp [allowedChoiceChar, h1]

theorem containsSub_head {k : Char} {kw h : List Char}
    (hc : containsSub (k :: kw) h = true) : k ∈ h := by
  induction h with
  | nil => simp [containsSub] at hc
  | cons a r ih =>
    rw [containsSub] at hc
    rcases Bool.or_eq_true_iff.mp hc with h1 | h1
    · rw [startsWith] at h1
      simp only [Bool.and_eq_true, beq_iff_eq] at h1
      rw [h1.1]
      exact List.mem_cons_self a r
    · exact List.mem_cons_of_mem a (ih h1)

theorem allowed_lower_self {c : Char} (h : allowedChoiceChar c = true) :
    pyLowerChar c = c ∧ c.toNat ≤ 93 := by
  simp only [allowedChoiceChar, Bool.or_eq_true, decide_eq_true_eq] at h
  have hval : c.toNat ≤ 93 ∧ ¬(65 ≤ c.toNat ∧ c.toNat ≤ 90) := by
    rcases h with ((((((h | h) | h) | h) | h) | h) | h) | h
    · simp only [isDigitC, Bool.and_eq_true, decide_eq_true_eq] at h
      omega
    · subst h; decide
    · subst h; decide
    · subst h; decide
    · subst h; decide
    · subst h; decide
    · subst h; decide
    · simp only [pyIsSpace, Bool.or_eq_true, decide_eq_true_eq] at h
      omega
  refine ⟨?_, hval.1⟩
  unfold pyLowerChar
  have h1 : ¬(65 ≤ c.toNat ∧ c.toNat ≤ 90) := hval.2
  have h2 : ¬(192 ≤ c.toNat ∧ c.toNat ≤ 222 ∧ c.toNat ≠ 215) := by
    have := hval.1
    omega
  simp [h1, h2]

/-- A short numeric choice can never contain an exit keyword: all its
characters stay below code point 99 after lowering, while every exit
keyword starts with a letter at or above 99. -/
theorem short_numeric_no_exit {t : List Char}
    (h : is_short_numeric_choice t = true) :
    containsAny exitKeywords (pyLower t) = false := by
  by_contra hco
  rw [Bool.not_eq_false] at hco
  have hchars := short_numeric_chars h
  have hkey : ∃ k, k ∈ pyLower t ∧ 99 ≤ k.toNat := by
    simp only [containsAny, exitKeywords, List.any_eq_true] at hco
    rcases hco with ⟨kw, hkw, hsub⟩
    fin_cases hkw
    · exact ⟨'e', containsSub_head hsub, by decide⟩
    · exact ⟨'f', containsSub_head hsub, by decide⟩
    · exact ⟨'s', containsSub_head hsub, by decide⟩
    · exact ⟨'c', containsSub_head hsub, by decide⟩
    · exact ⟨'t', containsSub_head hsub, by decide⟩
  rcases hkey with ⟨k, hk, hk99⟩
  simp only [pyLower, List.mem_map] at hk
  rcases hk with ⟨c, hct, hlc⟩
  have := allowed_lower_self (hchars c hct)
  rw [this.1] at hlc
  subst hlc
  omega

theorem containsSub_nil (h : List Char) : containsSub [] h = true := by
  cases h <;> simp [containsSub, startsWith]

theorem startsWith_trans : ∀ {m n h : List Char},
    startsWith m n = true → startsWith n h = true → startsWith m h = true := by
  intro m
  induction m with
  | nil => intro n h _ _; rw [startsWith]
  | cons a m1 ih =>
    intro n h h1 h2
    rcases n with _ | ⟨b, n1⟩
    · rw [startsWith] at h1; cases h1
    · rcases h with _ | ⟨c, h1l⟩
      · rw [startsWith] at h2; cases h2
      · rw [startsWith] at h1 h2 ⊢
        simp only [Bool.and_eq_true, beq_iff_eq] at h1 h2 ⊢
        exact ⟨h1.1.trans h2.1, ih h1.2 h2.2⟩

theorem startsWith_containsSub : ∀ {n h m : List Char},
    startsWith n h = true → containsSub m n = true → containsSub m h = true := by
  intro n
  induction n with
  | nil =>
    intro h m _ hm
    rw [containsSub] at hm
    rw [List.isEmpty_iff] at hm
    subst hm
    exact containsSub_nil h
  | cons a n1 ih =>
    intro h m h1 hm
    rcases h with _ | ⟨b, h2⟩
    · rw [startsWith] at h1; cases h1
    · rw [containsSub] at hm
      rcases Bool.or_eq_true_iff.mp hm with hm1 | hm1
      · have := startsWith_trans hm1 h1
        rw [containsSub]
        exact Bool.or_eq_true_iff.mpr (Or.inl this)
      · rw [startsWith] at h1
        simp only [Bool.and_eq_true] at h1
        have := ih h1.2 hm1
        rw [containsSub]
        exact Bool.or_eq_true_iff.mpr (Or.inr this)

/-- If `n` occurs in `h` and `m` occurs in `n` then `m` occurs in `h`. -/
theorem containsSub_trans : ∀ {h n m : List Char},
    containsSub n h = true → containsSub m n = true → containsSub m h = true := by
  intro h
  induction h with
  | nil =>
    intro n m h1 h2
    rw [containsSub] at h1
    rw [List.isEmpty_iff] at h1
    subst h1
    rw [containsSub] at h2
    rw [List.isEmpty_iff] at h2
    subst h2
    rw [containsSub]
    rfl
  | cons c t ih =>
    intro n m h1 h2
    rw [containsSub] at h1
    rcases Bool.or_eq_true_iff.mp h1 with ha | ha
    · exact startsWith_containsSub ha h2
    · have := ih ha h2
      rw [containsSub]
      exact Bool.or_eq_true_iff.mpr (Or.inr this)

theorem consulta_block_done_false (env : Env) (w : World) (s : Session) :
    (consulta_block env w s).2.2.done = false := by
  unfold consulta_block
  try dsimp only
  split <;> rfl

theorem submit_increase_done_false (env : Env) (w : World) (s : Session) (amt : ℚ) :
    (submit_increase env w s amt).2.2.done = false := by
  unfold submit_increase
  try dsimp only
  (repeat' split) <;> rfl

theorem handle_post_auth_done_false (env : Env) (w : World) (s : Session)
    (text l : List Char) : (handle_post_auth env w s text l).2.2.done = false := by
  unfold handle_post_auth
  try dsimp only
  (repeat' split) <;> rfl

theorem handle_confirm_redirect_done_false (w : World) (s : Session) (l : List Char) :
    (handle_confirm_redirect w s l).2.2.done = false := by
  unfold handle_confirm_redirect
  try dsimp only
  (repeat' split) <;> rfl

theorem handle_ask_credit_action_done_false (env : Env) (w : World) (s : Session)
    (text : List Char) : (handle_ask_credit_action env w s text).2.2.done = false := by
  unfold handle_ask_credit_action
  try dsimp only
  (repeat' split) <;> first | rfl | apply consulta_block_done_false

theorem handle_ask_credit_amount_done_false (env : Env) (w : World) (s : Session)
    (text l : List Char) : (handle_ask_credit_amount env w s text l).2.2.done = false := by
  unfold handle_ask_credit_amount
  try dsimp only
  (repeat' split) <;> first | rfl | apply submit_increase_done_false

theorem handle_exchange_currency_done_false (env : Env) (w : World) (s : Session)
    (text : List Char) : (handle_exchange_currency env w s text).2.2.done = false := by
  unfold handle_exchange_currency
  try dsimp only
  (repeat' split) <;> rfl

theorem handle_interview_running_done_false (env : Env) (w : World) (s : Session)
    (text : List Char) : (handle_interview_running env w s text).2.2.done = false := by
  unfold handle_interview_running
  try dsimp only
  (repeat' split) <;> rfl

theorem handle_offer_interview_done_false (env : Env) (w : World) (s : Session)
    (l : List Char) : (handle_offer_interview env w s l).2.2.done = false := by
  unfold handle_offer_interview
  try dsimp only
  (repeat' split) <;> rfl

theorem handle_credit_more_done_false (env : Env) (w : World) (s : Session)
    (text l : List Char) : (handle_credit_more env w s text l).2.2.done = false := by
  unfold handle_credit_more
  try dsimp only
  (repeat' split) <;> first | rfl | apply consulta_block_done_false

theorem handle_ask_cpf_done_final (env : Env) (w : World) (s : Session)
    (text : List Char) :
    (handle_ask_cpf env w s text).2.2.done = true →
    (handle_ask_cpf env w s text).1.state = .final := by
  unfold handle_ask_cpf
  try dsimp only
  (repeat' split) <;> simp

theorem handle_ask_dob_done_final (env : Env) (w : World) (s : Session)
    (text : List Char) :
    (handle_ask_dob env w s text).2.2.done = true →
    (handle_ask_dob env w s text).1.state = .final := by
  unfold handle_ask_dob
  try dsimp only
  (repeat' split) <;> simp

theorem handle_ask_more_done_final (w : World) (s : Session) (l : List Char) :
    (handle_ask_more w s l).2.2.done = true →
    (handle_ask_more w s l).1.state = .final := by
  unfold handle_ask_more
  try dsimp only
  (repeat' split) <;> simp

theorem handle_exchange_more_done_final (w : World) (s : Session) (l : List Char) :
    (handle_exchange_more w s l).2.2.done = true →
    (handle_exchange_more w s l).1.state = .final := by
  unfold handle_exchange_more
  try dsimp only
  (repeat' split) <;> simp

/-- Every dispatch case that reports `done = true` has put the session in
`final`. -/
theorem dispatch_state_done_final (env : Env) (w : World) (s1 : Session)
    (text l : List Char) :
    (dispatch_state env w s1 text l).2.2.done = true →
    (dispatch_state env w s1 text l).1.state = .final := by
  unfold dispatch_state
  cases h : s1.state
  · exact handle_ask_cpf_done_final env w s1 text
  · exact handle_ask_dob_done_final env w s1 text
  · intro hd
    rw [handle_post_auth_done_false] at hd
    cases hd
  · intro hd
    rw [handle_confirm_redirect_done_false] at hd
    cases hd
  · intro hd
    rw [handle_ask_credit_action_done_false] at hd
    cases hd
  · intro hd
    rw [handle_ask_credit_amount_done_false] at hd
    cases hd
  · intro hd
    rw [handle_exchange_currency_done_false] at hd
    cases hd
  · intro hd
    rw [handle_interview_running_done_false] at hd
    cases hd
  · intro hd
    rw [handle_offer_interview_done_false] at hd
    cases hd
  · exact handle_ask_more_done_final w s1 l
  · intro hd
    rw [handle_credit_more_done_false] at hd
    cases hd
  · exact handle_exchange_more_done_final w s1 l
  · intro _
    rfl

/-! ## Claim theorems -/

/-- Claim C5: for every session state and every input whose lowercased
text contains any exit keyword (`encerrar`, `fim`, `sair`, `cancelar`,
`tchau`), `handle_user` forces the state to `final` and returns the
closing message with `done = true`, pre-empting all other state logic on
that turn. -/
theorem claim5_exit_preempts (env : Env) (w : World) (s : Session) (u : List Char)
    (hexit : containsAny exitKeywords (pyLower (pyStrip u)) = true) :
    handle_user env w s u
      = ({ s with state := .final, awaitingAmount := false }, w, ⟨.exitGoodbye, true⟩) := by
  unfold handle_user
  simp [hexit]

theorem claim5_witness :
    containsAny exitKeywords (pyLower (pyStrip ("sair".toList))) = true ∧
    handle_user sampleEnv sampleWorld sampleAskMore ("sair".toList)
      = ({ sampleAskMore with state := .final, awaitingAmount := false }, sampleWorld,
         ⟨.exitGoodbye, true⟩) :=
  ⟨by decide, claim5_exit_preempts sampleEnv sampleWorld sampleAskMore _ (by decide)⟩

/-- Claim C4: in every session state with `authenticated = false`, an
input that is a bare short numeric menu choice is answered with the
re-prompt for identity, is never interpreted as a menu selection, and
leaves the session (and the world) completely unchanged. -/
theorem claim4_numeric_rejected_pre_auth (env : Env) (w : World) (s : Session)
    (u : List Char)
    (hauth : s.authenticated = false)
    (hshort : is_short_numeric_choice (pyStrip u) = true) :
    handle_user env w s u = (s, w, ⟨.needAuthFirst, false⟩) := by
  have hexit := short_numeric_no_exit hshort
  unfold handle_user
  simp [hexit, hauth, hshort]

theorem claim4_witness :
    sampleFresh.authenticated = false ∧
    is_short_numeric_choice (pyStrip ("1".toList)) = true ∧
    handle_user sampleEnv sampleWorld sampleFresh ("1".toList)
      = (sampleFresh, sampleWorld, ⟨.needAuthFirst, false⟩) :=
  ⟨by decide, by decide,
   claim4_numeric_rejected_pre_auth sampleEnv sampleWorld sampleFresh _
     (by decide) (by decide)⟩

/-- Claim C3: each failed ID+date lookup — whether ID and date arrived in
one message in `ask_cpf`, or the date arrived separately in `ask_dob` —
increments the attempts counter; a date parse failure in `ask_dob`
re-prompts without consuming an attempt; after exactly `max_attempts` (3)
consecutive failures the session reaches `final` with `done = true`; and
once in `final` no further attempts are processed. -/
theorem claim3_auth_attempts :
    (∀ (env : Env) (w : World) (s : Session) (u : List Char),
      s.state = .askCpf → s.authenticated = false → s.maxAttempts = 3 →
      containsAny exitKeywords (pyLower (pyStrip u)) = false →
      is_short_numeric_choice (pyStrip u) = false →
      (extract_cpf (pyStrip u)).isEmpty = false →
      (extract_date (pyStrip u)).isEmpty = false →
      find_by_cpf_and_dob env.repoClients (normalize_cpf (extract_cpf (pyStrip u)))
        (normalize_date (extract_date (pyStrip u))) = none →
      (handle_user env w s u).1.attempts = s.attempts + 1 ∧
      (s.attempts + 1 < 3 →
        (handle_user env w s u).1.state = .askCpf ∧
        (handle_user env w s u).2.2 = ⟨.retryMsg (3 - (s.attempts + 1)), false⟩) ∧
      (3 ≤ s.attempts + 1 →
        (handle_user env w s u).1.state = .final ∧
        (handle_user env w s u).2.2 = ⟨.authFailedFinal, true⟩)) ∧
    (∀ (env : Env) (w : World) (s : Session) (u : List Char),
      s.state = .askDob → s.authenticated = false →
      containsAny exitKeywords (pyLower (pyStrip u)) = false →
      is_short_numeric_choice (pyStrip u) = false →
      (extract_date (pyStrip u)).isEmpty = true →
      handle_user env w s u = (s, w, ⟨.dobFormatIncorrect, false⟩)) ∧
    (∀ (env : Env) (w : World) (s : Session) (u : List Char),
      s.state = .askDob → s.authenticated = false → s.maxAttempts = 3 →
      containsAny exitKeywords (pyLower (pyStrip u)) = false →
      is_short_numeric_choice (pyStrip u) = false →
      (extract_date (pyStrip u)).isEmpty = false →
      find_by_cpf_and_dob env.repoClients s.cpf
        (normalize_date (extract_date (pyStrip u))) = none →
      (handle_user env w s u).1.attempts = s.attempts + 1 ∧
      (s.attempts + 1 < 3 →
        (handle_user env w s u).1.state = .askCpf ∧
        (handle_user env w s u).2.2 = ⟨.retryMsg (3 - (s.attempts + 1)), false⟩) ∧
      (3 ≤ s.attempts + 1 →
        (handle_user env w s u).1.state = .final ∧
        (handle_user env w s u).2.2 = ⟨.authFailedFinal, true⟩)) ∧
    (∀ (env : Env) (w : World) (s : Session) (u : List Char),
      s.state = .final →
      (handle_user env w s u).1.attempts = s.attempts ∧
      (handle_user env w s u).1.state = .final) := by
  refine ⟨?_, ?_, ?_, ?_⟩
  · intro env w s u hst hauth hmax hexit hshort hcpf hdate hfind
    unfold handle_user dispatch_state handle_ask_cpf
    by_cases hlt : s.attempts + 1 ≥ 3
    · simp [hexit, hauth, hshort, hst, hcpf, hdate, hfind, hmax, hlt]
    · simp [hexit, hauth, hshort, hst, hcpf, hdate, hfind, hmax, hlt]
  · intro env w s u hst hauth hexit hshort hdate
    unfold handle_user dispatch_state handle_ask_dob
    simp [hexit, hauth, hshort, hst, hdate]
  · intro env w s u hst hauth hmax hexit hshort hdate hfind
    unfold handle_user dispatch_state handle_ask_dob
    by_cases hlt : s.attempts + 1 ≥ 3
    · simp [hexit, hauth, hshort, hst, hdate, hfind, hmax, hlt]
    · simp [hexit, hauth, hshort, hst, hdate, hfind, hmax, hlt]
  · intro env w s u hst
    unfold handle_user
    by_cases hexit : containsAny exitKeywords (pyLower (pyStrip u)) = true
    · simp [hexit]
    · simp only [Bool.not_eq_true] at hexit
      by_cases hnum : s.authenticated = false ∧ is_short_numeric_choice (pyStrip u) = true
      · simp [hexit, hst, hnum]
      · simp [hexit, hst, hnum, dispatch_state]

/-- Claim C1 counterexample: in `ask_more`, the exact input `"menu"` is
caught by the decline check (its keyword `"n"` is a substring of
`"menu"`), so the session goes to `final` with `done = true` and the
closing message — not back to `post_auth` with the menu. -/
theorem claim1_counterexample :
    (handle_user sampleEnv sampleWorld sampleAskMore ("menu".toList)).2.2.done = true ∧
    (handle_user sampleEnv sampleWorld sampleAskMore ("menu".toList)).1.state = .final ∧
    (handle_user sampleEnv sampleWorld sampleAskMore ("menu".toList)).2.2.assistant
      = .goodbye := by
  refine ⟨by decide, by decide, by decide⟩

/-- Claim C1 (amended): in `ask_more` the decline check fires for any
input whose lowered text contains the letter `n` — which includes the
literal text `"menu"` as well as every explicit decline — and sends the
session to `final` with the closing message and `done = true`; the
menu branch is only reachable through `opções`/`opcoes` (inputs with no
`n`), and then returns to `post_auth` with the main menu and
`done = false`. -/
theorem claim1_ask_more_menu (env : Env) (w : World) (s : Session) (u : List Char)
    (hst : s.state = .askMore) (hauth : s.authenticated = true)
    (hexit : containsAny exitKeywords (pyLower (pyStrip u)) = false) :
    (containsSub ("n".toList) (pyLower (pyStrip u)) = true →
      handle_user env w s u
        = ({ s with state := .final, awaitingAmount := false }, w, ⟨.goodbye, true⟩)) ∧
    (containsSub ("n".toList) (pyLower (pyStrip u)) = false →
      (containsSub ("opções".toList) (pyLower (pyStrip u)) = true ∨
       containsSub ("opcoes".toList) (pyLower (pyStrip u)) = true) →
      handle_user env w s u
        = ({ s with state := .postAuth }, w,
           ⟨.postAuthMenu (nameOrCliente s.authenticatedName), false⟩)) := by
  constructor
  · intro hn
    have hn2 : containsSub ['n'] (pyLower (pyStrip u)) = true := hn
    have hdecl : containsAny [['n', 'ã', 'o'], ['n', 'a', 'o'], ['n'],
        ['n', 'ã', 'o', ',', ' ', 'o', 'b', 'r', 'i', 'g', 'a', 'd', 'o'],
        ['n', 'a', 'o', ',', ' ', 'o', 'b', 'r', 'i', 'g', 'a', 'd', 'o']]
        (pyLower (pyStrip u)) = true := by
      simp [containsAny, hn2]
    unfold handle_user dispatch_state handle_ask_more
    simp [hexit, hauth, hst, hn, hn2, hdecl]
  · intro hn hop
    have key : ∀ kw : List Char, containsSub ("n".toList) kw = true →
        containsSub kw (pyLower (pyStrip u)) = false := by
      intro kw hkw
      by_contra hc
      rw [Bool.not_eq_false] at hc
      have := containsSub_trans hc hkw
      rw [hn] at this
      cases this
    have h1 : containsSub ['n', 'ã', 'o'] (pyLower (pyStrip u)) = false := key _ (by decide)
    have h2 : containsSub ['n', 'a', 'o'] (pyLower (pyStrip u)) = false := key _ (by decide)
    have h3 : containsSub ['n'] (pyLower (pyStrip u)) = false := hn
    have h4 : containsSub ['n', 'ã', 'o', ',', ' ', 'o', 'b', 'r', 'i', 'g', 'a', 'd', 'o']
        (pyLower (pyStrip u)) = false := key _ (by decide)
    have h5 : containsSub ['n', 'a', 'o', ',', ' ', 'o', 'b', 'r', 'i', 'g', 'a', 'd', 'o']
        (pyLower (pyStrip u)) = false := key _ (by decide)
    have hmenu : containsSub ['m', 'e', 'n', 'u'] (pyLower (pyStrip u)) = false :=
      key _ (by decide)
    have hdecl : containsAny [['n', 'ã', 'o'], ['n', 'a', 'o'], ['n'],
        ['n', 'ã', 'o', ',', ' ', 'o', 'b', 'r', 'i', 'g', 'a', 'd', 'o'],
        ['n', 'a', 'o', ',', ' ', 'o', 'b', 'r', 'i', 'g', 'a', 'd', 'o']]
        (pyLower (pyStrip u)) = false := by
      simp [containsAny, h1, h2, h3, h4, h5]
    unfold handle_user dispatch_state handle_ask_more
    rcases hop with hop | hop
    · have hop2 : containsSub ['o', 'p', 'ç', 'õ', 'e', 's'] (pyLower (pyStrip u))
        = true := hop
      simp [hexit, hauth, hst, hdecl, hmenu, hop, hop2]
    · have hop2 : containsSub ['o', 'p', 'c', 'o', 'e', 's'] (pyLower (pyStrip u))
        = true := hop
      simp [hexit, hauth, hst, hdecl, hmenu, hop, hop2]

theorem claim1_witness :
    (handle_user sampleEnv sampleWorld sampleAskMore ("não".toList)
      = ({ sampleAskMore with state := .final, awaitingAmount := false }, sampleWorld,
         ⟨.goodbye, true⟩)) ∧
    (handle_user sampleEnv sampleWorld sampleAskMore ("opções".toList)
      = ({ sampleAskMore with state := .postAuth }, sampleWorld,
         ⟨.postAuthMenu (nameOrCliente sampleAskMore.authenticatedName), false⟩)) :=
  ⟨(claim1_ask_more_menu sampleEnv sampleWorld sampleAskMore ("não".toList)
      (by decide) (by decide) (by decide)).1 (by decide),
   (claim1_ask_more_menu sampleEnv sampleWorld sampleAskMore ("opções".toList)
      (by decide) (by decide) (by decide)).2 (by decide) (Or.inl (by decide))⟩

/-- Claim C10 counterexample: with the session already in `final` but not
authenticated (as after three failed logins), the bare numeric input
`"1"` is answered by the pre-authentication guard with `done = false`,
so `done` is not equivalent to being in `final`, and a `final` session
can keep answering `done = false`. -/
theorem claim10_counterexample :
    (handle_user sampleEnv sampleWorld sampleFinalUnauth ("1".toList)).1.state
      = .final ∧
    (handle_user sampleEnv sampleWorld sampleFinalUnauth ("1".toList)).2.2.done
      = false := by
  refine ⟨by decide, by decide⟩

/-- Claim C10 (amended): `done = true` implies the post-call state is
`final`; `final` is absorbing for the state; and a call made in `final`
returns `done = true` unless the session is unauthenticated and the
input is a bare short numeric choice (which is answered with the
identity re-prompt and `done = false`). -/
theorem claim10_done_final :
    (∀ (env : Env) (w : World) (s : Session) (u : List Char),
      (handle_user env w s u).2.2.done = true →
      (handle_user env w s u).1.state = .final) ∧
    (∀ (env : Env) (w : World) (s : Session) (u : List Char),
      s.state = .final → (handle_user env w s u).1.state = .final) ∧
    (∀ (env : Env) (w : World) (s : Session) (u : List Char),
      s.state = .final →
      (s.authenticated = true ∨ is_short_numeric_choice (pyStrip u) = false) →
      (handle_user env w s u).2.2.done = true) := by
  refine ⟨?_, ?_, ?_⟩
  · intro env w s u
    unfold handle_user
    by_cases hexit : containsAny exitKeywords (pyLower (pyStrip u)) = true
    · intro _
      simp [hexit]
    · simp only [Bool.not_eq_true] at hexit
      simp only [hexit, Bool.false_eq_true, if_false]
      split <;> split <;>
        first
          | apply dispatch_state_done_final
          | (intro hd; exact absurd hd (by simp))
  · intro env w s u hst
    unfold handle_user
    by_cases hexit : containsAny exitKeywords (pyLower (pyStrip u)) = true
    · simp [hexit]
    · have hrec : ¬(s.authenticated = true ∧
          (s.state = TState.askCpf ∨ s.state = TState.askDob)) := by
        rw [hst]
        rintro ⟨-, h | h⟩ <;> cases h
      simp only [Bool.not_eq_true] at hexit
      simp only [hexit, Bool.false_eq_true, if_false, if_neg hrec]
      split
      · simp [hst]
      · simp [dispatch_state, hst]
  · intro env w s u hst hcond
    unfold handle_user
    by_cases hexit : containsAny exitKeywords (pyLower (pyStrip u)) = true
    · simp [hexit]
    · have hnum : ¬(s.authenticated = false ∧ is_short_numeric_choice (pyStrip u) = true) := by
        rintro ⟨h1, h2⟩
        rcases hcond with h | h
        · rw [h] at h1
          cases h1
        · rw [h] at h2
          cases h2
      simp only [Bool.not_eq_true] at hexit
      simp [hexit, hst, hnum, dispatch_state]

theorem claim10_witness :
    ((handle_user sampleEnv sampleWorld sampleFinalUnauth ("oi".toList)).1.state
      = .final) ∧
    ((handle_user sampleEnv sampleWorld sampleFinalUnauth ("tudo bem".toList)).1.state
      = .final) ∧
    ((handle_user sampleEnv sampleWorld sampleFinalUnauth ("oi".toList)).2.2.done
      = true) :=
  ⟨claim10_done_final.1 sampleEnv sampleWorld sampleFinalUnauth _ (by decide),
   claim10_done_final.2.1 sampleEnv sampleWorld sampleFinalUnauth _ (by decide),
   claim10_done_final.2.2 sampleEnv sampleWorld sampleFinalUnauth _ (by decide)
     (Or.inr (by decide))⟩

theorem claim3_witness :
    ((handle_user sampleEnv sampleWorld sampleFresh
        ("12345678901 01/01/1990".toList)).1.attempts = sampleFresh.attempts + 1) ∧
    (handle_user sampleEnv sampleWorld sampleAskDob ("olá".toList)
      = (sampleAskDob, sampleWorld, ⟨.dobFormatIncorrect, false⟩)) ∧
    ((handle_user sampleEnv sampleWorld sampleAskDob
        ("01/01/1990".toList)).1.attempts = sampleAskDob.attempts + 1) ∧
    ((handle_user sampleEnv sampleWorld sampleFinalUnauth ("oi".toList)).1.attempts
        = sampleFinalUnauth.attempts ∧
     (handle_user sampleEnv sampleWorld sampleFinalUnauth ("oi".toList)).1.state
        = .final) :=
  ⟨(claim3_auth_attempts.1 sampleEnv sampleWorld sampleFresh _
      (by decide) (by decide) (by decide) (by decide) (by decide) (by decide)
      (by decide) (by decide)).1,
   claim3_auth_attempts.2.1 sampleEnv sampleWorld sampleAskDob _
     (by decide) (by decide) (by decide) (by decide) (by decide),
   (claim3_auth_attempts.2.2.1 sampleEnv sampleWorld sampleAskDob _
     (by decide) (by decide) (by decide) (by decide) (by decide) (by decide)
     (by decide)).1,
   claim3_auth_attempts.2.2.2 sampleEnv sampleWorld sampleFinalUnauth ("oi".toList)
     (by decide)⟩

/-- Claim C9: the amount parser maps `"8k"` to `8000.0`, `"1.500,50"` to
`1500.50`, and `"R$ 5000"` to `5000.0` (thousands/decimal separators, the
`k` suffix and currency symbols are tolerated). -/
theorem claim9_amount_extraction :
    extract_amount ("8k".toList) = some 8000 ∧
    extract_amount ("1.500,50".toList) = some (1500.50 : ℚ) ∧
    extract_amount ("R$ 5000".toList) = some 5000 := by
  refine ⟨?_, ?_, ?_⟩
  · have h : extract_amount ("8k".toList)
        = some ((((8 : ℕ) : ℚ) + ((0 : ℕ) : ℚ) / (10 : ℚ) ^ (0 : ℕ)) * 1000) := rfl
    rw [h]
    norm_num
  · have h : extract_amount ("1.500,50".toList)
        = some (((1500 : ℕ) : ℚ) + ((50 : ℕ) : ℚ) / (10 : ℚ) ^ (2 : ℕ)) := rfl
    rw [h]
    norm_num
  · have h : extract_amount ("R$ 5000".toList)
        = some (((5000 : ℕ) : ℚ) + ((0 : ℕ) : ℚ) / (10 : ℚ) ^ (0 : ℕ)) := rfl
    rw [h]
    norm_num

theorem find?_eq_filter_head {α : Type} (p : α → Bool) :
    ∀ l : List α, l.find? p = (l.filter p).head? := by
  intro l
  induction l with
  | nil => rfl
  | cons a t ih =>
    cases h : p a
    · simp only [List.find?, List.filter, h]
      exact ih
    · simp only [List.find?, List.filter, h, List.head?]

/-- The allowed limit is the limit of the first table row whose range
contains the score, `0` when none does. -/
theorem allowed_limit_eq_filter (srows : List ScoreRow) (sc : ℤ) :
    allowed_limit_by_score srows sc
      = (((srows.filter (fun row => decide (row.minScore ≤ sc)
            && decide (sc ≤ row.maxScore))).head?.map ScoreRow.maxAllowedLimit).getD 0) := by
  unfold allowed_limit_by_score
  rw [find?_eq_filter_head]
  cases (srows.filter (fun row => decide (row.minScore ≤ sc)
      && decide (sc ≤ row.maxScore))).head? <;> rfl

/-- Claim C6: for every client found by `solicitar_aumento`, a score-less
record is scored `300 + (digit-sum of the ID mod 551)`, the allowed limit
comes from the first score-table row whose range contains that score
(`0.0` when no row matches), and the request is approved exactly when the
requested limit does not exceed the allowed limit. -/
theorem claim6_scoreless_decision (clients : List ClientRow) (srows : List ScoreRow)
    (log : List ReqRow) (now cpf : List Char) (novo : ℚ) (client : CreditClient)
    (hfind : find_client_row clients cpf = some client)
    (hscore : client.score = none) :
    (solicitar_aumento clients srows log now cpf novo).1
      = some { cpf := client.cpf, nome := client.nome,
               limiteAtual := client.limiteAtual, novoLimiteSolicitado := novo,
               statusPedido :=
                 if novo ≤ allowed_limit_by_score srows
                     (300 + ((digitSum (client.cpf.filter isDigitC) : ℤ) % 551))
                 then .aprovado else .rejeitado,
               reasonScore := 300 + ((digitSum (client.cpf.filter isDigitC) : ℤ) % 551),
               reasonAllowed := allowed_limit_by_score srows
                 (300 + ((digitSum (client.cpf.filter isDigitC) : ℤ) % 551)) } ∧
    (∀ sc : ℤ, allowed_limit_by_score srows sc
      = (((srows.filter (fun row => decide (row.minScore ≤ sc)
            && decide (sc ≤ row.maxScore))).head?.map ScoreRow.maxAllowedLimit).getD 0)) ∧
    (∀ res, (solicitar_aumento clients srows log now cpf novo).1 = some res →
      (res.statusPedido = .aprovado ↔
        novo ≤ allowed_limit_by_score srows
          (300 + ((digitSum (client.cpf.filter isDigitC) : ℤ) % 551)))) := by
  have hmain : (solicitar_aumento clients srows log now cpf novo).1
      = some { cpf := client.cpf, nome := client.nome,
               limiteAtual := client.limiteAtual, novoLimiteSolicitado := novo,
               statusPedido :=
                 if novo ≤ allowed_limit_by_score srows
                     (300 + ((digitSum (client.cpf.filter isDigitC) : ℤ) % 551))
                 then .aprovado else .rejeitado,
               reasonScore := 300 + ((digitSum (client.cpf.filter isDigitC) : ℤ) % 551),
               reasonAllowed := allowed_limit_by_score srows
                 (300 + ((digitSum (client.cpf.filter isDigitC) : ℤ) % 551)) } := by
    unfold solicitar_aumento
    rw [hfind]
    dsimp only
    rw [hscore]
  refine ⟨hmain, ?_, ?_⟩
  · intro sc
    exact allowed_limit_eq_filter srows sc
  · intro res hres
    rw [hmain] at hres
    injection hres with hres
    subst hres
    by_cases hle : novo ≤ allowed_limit_by_score srows
        (300 + ((digitSum (client.cpf.filter isDigitC) : ℤ) % 551))
    · simp [hle]
    · simp [hle]

theorem claim6_witness :
    find_client_row [sampleClient] ("12345678901".toList)
      = some { cpf := "12345678901".toList, nome := "Ana".toList,
               limiteAtual := 1000, score := none } ∧
    (solicitar_aumento [sampleClient] sampleScoreTable [] [] ("12345678901".toList)
        500).1
      = some { cpf := "12345678901".toList, nome := "Ana".toList,
               limiteAtual := 1000, novoLimiteSolicitado := 500,
               statusPedido :=
                 if (500 : ℚ) ≤ allowed_limit_by_score sampleScoreTable
                     (300 + ((digitSum (("12345678901".toList).filter isDigitC) : ℤ) % 551))
                 then .aprovado else .rejeitado,
               reasonScore := 300
                 + ((digitSum (("12345678901".toList).filter isDigitC) : ℤ) % 551),
               reasonAllowed := allowed_limit_by_score sampleScoreTable
                 (300 + ((digitSum (("12345678901".toList).filter isDigitC) : ℤ) % 551)) } :=
  ⟨by decide,
   (claim6_scoreless_decision [sampleClient] sampleScoreTable [] [] ("12345678901".toList)
      500
      { cpf := "12345678901".toList, nome := "Ana".toList, limiteAtual := 1000,
        score := none }
      (by decide) (by decide)).1⟩

theorem solicitar_log_suffix (clients : List ClientRow) (srows : List ScoreRow)
    (log : List ReqRow) (now cpf : List Char) (novo : ℚ) :
    ∃ t, (solicitar_aumento clients srows log now cpf novo).2 = log ++ t := by
  unfold solicitar_aumento
  try dsimp only
  (repeat' split) <;> first | exact ⟨_, rfl⟩ | exact ⟨[], by simp⟩

theorem submit_increase_log (env : Env) (w : World) (s : Session) (amt : ℚ) :
    ∃ t, (submit_increase env w s amt).2.1.log = w.log ++ t := by
  unfold submit_increase
  rcases solicitar_log_suffix env.creditClients env.scoreRows w.log env.now s.cpf amt
    with ⟨t, ht⟩
  try dsimp only
  (repeat' split) <;> exact ⟨t, ht⟩

theorem consulta_block_log (env : Env) (w : World) (s : Session) :
    (consulta_block env w s).2.1.log = w.log := by
  unfold consulta_block
  try dsimp only
  (repeat' split) <;> rfl

theorem handle_ask_credit_amount_log (env : Env) (w : World) (s : Session)
    (text l : List Char) :
    ∃ t, (handle_ask_credit_amount env w s text l).2.1.log = w.log ++ t := by
  unfold handle_ask_credit_amount
  try dsimp only
  (repeat' split) <;>
    first
      | apply submit_increase_log
      | exact ⟨[], by simp⟩

theorem dispatch_state_log (env : Env) (w : World) (s1 : Session) (text l : List Char) :
    ∃ t, (dispatch_state env w s1 text l).2.1.log = w.log ++ t := by
  unfold dispatch_state
  cases h : s1.state
  · unfold handle_ask_cpf
    try dsimp only
    (repeat' split) <;> exact ⟨[], by simp⟩
  · unfold handle_ask_dob
    try dsimp only
    (repeat' split) <;> exact ⟨[], by simp⟩
  · unfold handle_post_auth
    try dsimp only
    (repeat' split) <;> exact ⟨[], by simp⟩
  · unfold handle_confirm_redirect
    try dsimp only
    (repeat' split) <;> exact ⟨[], by simp⟩
  · unfold handle_ask_credit_action
    try dsimp only
    (repeat' split) <;>
      first
        | (rw [consulta_block_log]; exact ⟨[], by simp⟩)
        | exact ⟨[], by simp⟩
  · apply handle_ask_credit_amount_log
  · unfold handle_exchange_currency
    try dsimp only
    (repeat' split) <;> exact ⟨[], by simp⟩
  · unfold handle_interview_running
    try dsimp only
    (repeat' split) <;> exact ⟨[], by simp⟩
  · unfold handle_offer_interview
    try dsimp only
    (repeat' split) <;> exact ⟨[], by simp⟩
  · unfold handle_ask_more
    try dsimp only
    (repeat' split) <;> exact ⟨[], by simp⟩
  · unfold handle_credit_more
    try dsimp only
    (repeat' split) <;>
      first
        | (rw [consulta_block_log]; exact ⟨[], by simp⟩)
        | exact ⟨[], by simp⟩
  · unfold handle_exchange_more
    try dsimp only
    (repeat' split) <;> exact ⟨[], by simp⟩
  · exact ⟨[], by simp⟩

/-- Claim C8: every `solicitar_aumento` call that returns a decision
appends exactly one row to the request log (whatever the decision); a
call that finds no client leaves the log unchanged; and every
`handle_user` turn only ever extends the log — existing rows are never
mutated or deleted. -/
theorem claim8_log_monotone :
    (∀ (clients : List ClientRow) (srows : List ScoreRow) (log : List ReqRow)
        (now cpf : List Char) (novo : ℚ) (res : AumentoResult),
      (solicitar_aumento clients srows log now cpf novo).1 = some res →
      (solicitar_aumento clients srows log now cpf novo).2
        = log ++ [{ cpfCliente := res.cpf, dataHoraSolicitacao := now,
                    limiteAtual := res.limiteAtual, novoLimiteSolicitado := novo,
                    statusPedido := res.statusPedido }]) ∧
    (∀ (clients : List ClientRow) (srows : List ScoreRow) (log : List ReqRow)
        (now cpf : List Char) (novo : ℚ),
      (solicitar_aumento clients srows log now cpf novo).1 = none →
      (solicitar_aumento clients srows log now cpf novo).2 = log) ∧
    (∀ (env : Env) (w : World) (s : Session) (u : List Char),
      ∃ t, (handle_user env w s u).2.1.log = w.log ++ t) := by
  refine ⟨?_, ?_, ?_⟩
  · intro clients srows log now cpf novo res hres
    unfold solicitar_aumento at hres ⊢
    rcases hfind : find_client_row clients cpf with _ | client
    · rw [hfind] at hres
      dsimp only at hres
      exact Option.noConfusion hres
    · rw [hfind] at hres
      dsimp only at hres ⊢
      simp only [Option.some.injEq] at hres
      subst hres
      rfl
  · intro clients srows log now cpf novo hres
    unfold solicitar_aumento at hres ⊢
    rcases hfind : find_client_row clients cpf with _ | client
    · rfl
    · rw [hfind] at hres
      dsimp only at hres
      simp at hres
  · intro env w s u
    unfold handle_user
    by_cases hexit : containsAny exitKeywords (pyLower (pyStrip u)) = true
    · simp [hexit]
    · simp only [Bool.not_eq_true] at hexit
      simp only [hexit, Bool.false_eq_true, if_false]
      split <;> split
      · exact ⟨[], by simp⟩
      · apply dispatch_state_log
      · exact ⟨[], by simp⟩
      · apply dispatch_state_log

theorem claim8_witness :
    (solicitar_aumento [sampleClient] sampleScoreTable [] [] ("12345678901".toList)
        500).2
      = [] ++ [{ cpfCliente := "12345678901".toList, dataHoraSolicitacao := [],
                 limiteAtual := 1000, novoLimiteSolicitado := 500,
                 statusPedido := .aprovado }] :=
  claim8_log_monotone.1 [sampleClient] sampleScoreTable [] [] ("12345678901".toList)
    500
    { cpf := "12345678901".toList, nome := "Ana".toList, limiteAtual := 1000,
      novoLimiteSolicitado := 500, statusPedido := .aprovado,
      reasonScore := 346, reasonAllowed := 1000 }
    (by decide)

theorem pyRound_nonneg {q : ℚ} (h : 0 ≤ q) : 0 ≤ pyRound q := by
  unfold pyRound
  try dsimp only
  have hf : (0 : ℤ) ≤ ⌊q⌋ := Int.floor_nonneg.mpr h
  (repeat' split) <;> omega

theorem pyRound_le_1000 {q : ℚ} (h : q ≤ 1000) : pyRound q ≤ 1000 := by
  unfold pyRound
  try dsimp only
  have hf : ⌊q⌋ ≤ 1000 := by
    have h2 : ⌊q⌋ ≤ ⌊(1000 : ℚ)⌋ := Int.floor_le_floor h
    simpa using h2
  by_cases h1 : q - (⌊q⌋ : ℚ) < 1/2
  · rw [if_pos h1]
    exact hf
  · have hstrict : ⌊q⌋ < 1000 := by
      by_contra hc
      push_neg at hc
      have hcq : (1000 : ℚ) ≤ (⌊q⌋ : ℚ) := by exact_mod_cast hc
      have hr : (1 : ℚ)/2 ≤ q - (⌊q⌋ : ℚ) := not_lt.mp h1
      linarith
    rw [if_neg h1]
    split
    · omega
    · split <;> omega

theorem clamp_bounds (raw : ℚ) :
    0 ≤ (if raw < 0 then (0 : ℚ) else if raw > 1000 then 1000 else raw) ∧
    (if raw < 0 then (0 : ℚ) else if raw > 1000 then 1000 else raw) ≤ 1000 := by
  split_ifs with h1 h2 <;> constructor <;> linarith

/-- Claim C7: for every completed interview, the computed score equals
the spec formula `(income / (expenses + 1)) * 30 + employment weight
(formal 300, autônomo 200, desempregado 0) + dependents weight (0→100,
1→80, 2→60, 3+→30) + debt weight (sim→-100, não→+100)`, clamped to
`[0, 1000]` and rounded to the nearest integer; in particular the final
score always lies in `[0, 1000]`. -/
theorem claim7_interview_score (a : Answers) (r d : ℚ) (e : Emprego) (dep : Dep)
    (dv : SimNao)
    (hr : a.rendaMensal = some r) (hemp : a.tipoEmprego = some e)
    (hd : a.despesasFixas = some d) (hdep : a.dependentes = some dep)
    (hdv : a.temDividas = some dv) :
    calculate_score a = ((specInterviewScore r d e dep dv : ℤ) : ℚ) ∧
    (0 : ℚ) ≤ calculate_score a ∧ calculate_score a ≤ 1000 := by
  have heq : calculate_score a = ((specInterviewScore r d e dep dv : ℤ) : ℚ) := by
    unfold calculate_score specInterviewScore
    rw [hr, hemp, hd, hdep, hdv]
    cases e <;> cases dv <;> (rcases dep with ⟨_ | _ | _ | n⟩ | _) <;>
      simp [peso_emprego, peso_dividas, peso_renda]
  have h0 : 0 ≤ specInterviewScore r d e dep dv := by
    unfold specInterviewScore
    try dsimp only
    exact pyRound_nonneg (clamp_bounds _).1
  have h1 : specInterviewScore r d e dep dv ≤ 1000 := by
    unfold specInterviewScore
    try dsimp only
    exact pyRound_le_1000 (clamp_bounds _).2
  refine ⟨heq, ?_, ?_⟩
  · rw [heq]
    exact_mod_cast h0
  · rw [heq]
    exact_mod_cast h1

theorem claim7_witness :
    calculate_score sampleAnswersComplete
      = ((specInterviewScore 2000 500 .formal (.num 1) .nao : ℤ) : ℚ) ∧
    (0 : ℚ) ≤ calculate_score sampleAnswersComplete ∧
    calculate_score sampleAnswersComplete ≤ 1000 :=
  claim7_interview_score sampleAnswersComplete 2000 500 .formal (.num 1) .nao
    rfl rfl rfl rfl rfl

/-- The persistence call succeeds exactly when a row matches the CPF and
the atomic rewrite goes through. -/
theorem update_score_fst (clients : List ClientRow) (cpf : List Char) (q : ℚ)
    (wk : Bool) :
    (update_client_score_in_csv clients cpf q wk).1
      = (clients.any (fun row => row.cpf.filter isDigitC == cpf.filter isDigitC)
          && wk) := by
  unfold update_client_score_in_csv
  try dsimp only
  (repeat' split) <;> simp_all [List.isEmpty_iff]

/-- Claim C2 counterexample: with the final interview answer given and
the persistence call failing (no matching client row), the turn result
still carries `redirect = "credit"` — the claim says it carries no
redirect target. -/
theorem claim2_counterexample :
    (interview_handle true [] sampleDividas ("não".toList)).2.1.done = true ∧
    (interview_handle true [] sampleDividas ("não".toList)).2.1.redirect
      = some ("credit".toList) ∧
    (interview_handle true [] sampleDividas ("não".toList)).2.1.assistant
      = .finishedNotSaved := by
  refine ⟨by decide, by decide, by decide⟩

/-- Claim C2 (amended): when the interview reaches its final question and
the answer classifies as sim/não, the turn result has `done = true` and
`redirect = "credit"` in both persistence outcomes; a failed persistence
(`_update_client_score_in_csv` returning false) is reported by the
"could not update your record" message, a successful one by the
finished-with-score message. -/
theorem claim2_persistence_redirect (writeOk : Bool) (clients : List ClientRow)
    (s : InterviewState) (u : List Char) (v : SimNao)
    (hst : s.state = .askDividas)
    (hv : (if containsAny [("sim".toList), ("s".toList), ("tenho".toList),
            ("possuo".toList)] (pyLower (pyStrip u)) = true then some SimNao.sim
          else if containsAny [("não".toList), ("nao".toList), ("n".toList),
            ("não tenho".toList), ("nao tenho".toList)] (pyLower (pyStrip u)) = true
          then some SimNao.nao
          else none) = some v) :
    (interview_handle writeOk clients s u).2.1.done = true ∧
    (interview_handle writeOk clients s u).2.1.redirect = some ("credit".toList) ∧
    ((clients.any (fun row => row.cpf.filter isDigitC == s.cpf.filter isDigitC)
        = false ∨ writeOk = false) →
      (interview_handle writeOk clients s u).2.1.assistant = .finishedNotSaved) ∧
    (clients.any (fun row => row.cpf.filter isDigitC == s.cpf.filter isDigitC)
        = true → writeOk = true →
      (interview_handle writeOk clients s u).2.1.assistant
        = .finishedSaved (pyRound (calculate_score
            { s.answers with temDividas := some v }))) := by
  unfold interview_handle
  rw [hst]
  dsimp only
  rw [hv]
  dsimp only
  refine ⟨?_, ?_, ?_, ?_⟩
  · split <;> rfl
  · split <;> rfl
  · intro hfail
    have hfalse : (update_client_score_in_csv clients s.cpf
        (calculate_score { s.answers with temDividas := some v }) writeOk).1 = false := by
      rw [update_score_fst]
      rcases hfail with h | h <;> simp [h]
    rw [if_neg (by rw [hfalse]; exact Bool.false_ne_true)]
  · intro h1 h2
    have htrue : (update_client_score_in_csv clients s.cpf
        (calculate_score { s.answers with temDividas := some v }) writeOk).1 = true := by
      rw [update_score_fst]
      simp [h1, h2]
    rw [if_pos htrue]

theorem claim2_witness :
    (interview_handle true [] sampleDividas ("não".toList)).2.1.done = true ∧
    (interview_handle true [] sampleDividas ("não".toList)).2.1.redirect
      = some ("credit".toList) ∧
    (([] : List ClientRow).any (fun row =>
        row.cpf.filter isDigitC == sampleDividas.cpf.filter isDigitC) = false ∨
        (true : Bool) = false) ∧
    (interview_handle true [] sampleDividas ("não".toList)).2.1.assistant
      = .finishedNotSaved := by
  have h := claim2_persistence_redirect true [] sampleDividas ("não".toList) SimNao.nao
    (by decide) (by decide)
  exact ⟨h.1, h.2.1, Or.inl (by decide), h.2.2.1 (Or.inl (by decide))⟩

end BancoAgil
